import Mathlib

/-!
Verification of the process-task scheduler `TaskProcessManagerMax`
(src/src/TaskProcessManagerMax.ts) against its natural-language
specification.

The scheduler is shallowly embedded: the mutable instance fields become a
`MgrState` record, each method becomes a pure state transformer, and hook
invocations / process-level actions (spawn, kill, close delivery) become an
emitted `Event` list.  Node's asynchronous callbacks (the `close` handler of
a spawned child, the polling loop of `runSingle`) are modelled as explicit
transition functions, and whole executions as step relations / fueled
drivers over them.
-/

namespace TPMM

/-- A task specification (`System.ITask`): command, argument list and an
optional per-task timeout override.  Execution `options` and opaque metadata
are carried through untouched by the scheduler, so they are not modelled. -/
structure Task where
  command : String
  args : List String
  timeout : Option Nat
  deriving DecidableEq, Repr

instance : Inhabited Task := ⟨⟨"", [], none⟩⟩

/-- Per-task status strings written into `taskStatus`. -/
inductive TStatus where
  | waiting | running | done | failed | timeout | cancelled | stopped
  deriving DecidableEq, Repr

/-- Observable actions of the manager: hook invocations and process-level
effects.  Each constructor's arguments are exactly the arguments the
corresponding hook receives in the source (pids and the raw `task` object
omitted); `spawn` and `closed` record process lifecycle points. -/
inductive Event where
  | spawn (lane idx : Nat) (command : String)
  | closed (lane idx : Nat)
  | kill (idx : Nat) (signal : String)
  | beforeRunTask (thread idx : Nat)
  | afterRunTask (thread idx : Nat) (code : Option Int) (stdout stderr : String)
  | onStopTask (idx : Nat)
  | taskError (thread idx : Nat) (code : Option Int) (stderr : String)
  | taskDone (idx : Nat)
  | taskRetry (idx retry : Nat)
  | taskTimeout (idx : Nat)
  | groupDone (g : Nat)
  | allDone (total : Nat)
  | beforeStopTask (idx : Nat)
  | afterStopTask (idx : Nat)
  | beforeStop
  | afterStop
  | onDestroy
  deriving DecidableEq, Repr

/-- Association-list lookup keyed by task index (the `Record<number, _>`
fields of the class); the most recent write shadows older ones. -/
def alookup {α : Type} : List (Nat × α) → Nat → Option α
  | [], _ => none
  | (k, v) :: rest, i => if k = i then some v else alookup rest i

/-- The mutable instance state of `TaskProcessManagerMax`.

* `tasks` — the flat list; `cancelTask` nulls an entry, hence `Option Task`.
* `taskGroups` — grouped lanes.
* `threads` — worker slots (`(number | null)[]`).
* `processing` / `processed` — in-flight and completed index sets.
* `children` — key set of the live `ChildProcess` map.
* `timeouts` — key set of the armed deadline-timer map.
* `retryCount`, `taskStatus` — `Record<number, _>` keyed maps.
* `spawned` — ghost history: every index ever dispatched by the flat loop,
  in dispatch order (used to count attempts and to scope which `close`
  notifications the environment can deliver). -/
structure MgrState where
  totalThreads : Nat
  tasks : List (Option Task)
  taskGroups : List (List Task)
  threads : List (Option Nat)
  processing : List Nat
  processed : List Nat
  isProcessing : Bool
  isPaused : Bool
  children : List Nat
  retryCount : List (Nat × Nat)
  timeouts : List Nat
  maxRetry : Nat
  globalRetryLimit : Nat
  globalRetryCount : Nat
  taskStatus : List (Nat × TStatus)
  spawned : List Nat
  deriving DecidableEq, Repr

/-- The constructor with all-default scheduling state (`threads` nulled,
empty tables), parameterised by slot count and retry policy. -/
def initState (threads maxRetry globalRetryLimit : Nat) : MgrState :=
  { totalThreads := threads
    tasks := []
    taskGroups := []
    threads := List.replicate threads none
    processing := []
    processed := []
    isProcessing := false
    isPaused := false
    children := []
    retryCount := []
    timeouts := []
    maxRetry := maxRetry
    globalRetryLimit := globalRetryLimit
    globalRetryCount := 0
    taskStatus := []
    spawned := [] }

/-- Method `resetState` (lines 66–75): clears processed/processing, re-nulls the
slots, clears children, per-task retry counts, timers and the status table.
It does NOT touch `globalRetryCount`. -/
def resetState (s : MgrState) : MgrState :=
  { s with
    processed := []
    processing := []
    threads := List.replicate s.totalThreads none
    children := []
    retryCount := []
    timeouts := []
    taskStatus := []
    spawned := [] }

/-- Method `setTasks` (lines 77–82): installs a flat list, clears the groups,
resets state, then marks every installed index `waiting`. -/
def setTasks (ts : List Task) (s : MgrState) : MgrState :=
  let s1 := resetState { s with tasks := ts.map some, taskGroups := [] }
  { s1 with taskStatus := (List.range ts.length).map (fun i => (i, TStatus.waiting)) }

/-- Method `setGroupedTasks` (lines 84–88): installs grouped lanes, clears the flat
list, resets state.  No status is written for any task. -/
def setGroupedTasks (gs : List (List Task)) (s : MgrState) : MgrState :=
  resetState { s with taskGroups := gs, tasks := [] }

/-- Method `cancelTask` (lines 162–167): a no-op for an in-flight task; otherwise
nulls the spec and records status `cancelled`. -/
def cancelTask (i : Nat) (s : MgrState) : MgrState :=
  if i ∈ s.processing then s
  else
    { s with
      tasks := s.tasks.set i none
      taskStatus := (i, TStatus.cancelled) :: s.taskStatus }

/-- The statement `if (!xs.includes(i)) xs.push(i)` — the guarded push used for the
completed set. -/
def pushIfAbsent (l : List Nat) (i : Nat) : List Nat :=
  if i ∈ l then l else l ++ [i]

/-- Method `stopTask` (lines 132–147): fires the before hook; if a live child
exists, kills it, deletes it from the child map, removes the index from
`processing`, frees its slot, and pushes it to `processed` if absent; then
fires the after/on hooks and records status `stopped`.  (The deadline timer
for the index is not cleared here — faithful to the source.) -/
def stopTask (i : Nat) (sig : String) (s : MgrState) : MgrState × List Event :=
  if i ∈ s.children then
    ({ s with
        children := s.children.filter (fun j => j ≠ i)
        processing := s.processing.filter (fun j => j ≠ i)
        threads := s.threads.map (fun t => if t = some i then none else t)
        processed := pushIfAbsent s.processed i
        taskStatus := (i, TStatus.stopped) :: s.taskStatus },
     [Event.beforeStopTask i, Event.kill i sig, Event.afterStopTask i, Event.onStopTask i])
  else
    ({ s with taskStatus := (i, TStatus.stopped) :: s.taskStatus },
     [Event.beforeStopTask i, Event.afterStopTask i, Event.onStopTask i])

/-- Method `stop` (lines 115–130): clears the flags, kills every tracked child,
clears the child map, all timers, both index sets, and re-nulls the slots. -/
def stop (sig : String) (s : MgrState) : MgrState × List Event :=
  ({ s with
      isProcessing := false
      isPaused := false
      children := []
      timeouts := []
      processing := []
      processed := []
      threads := List.replicate s.totalThreads none },
   Event.beforeStop :: (s.children.map (fun i => Event.kill i sig)) ++ [Event.afterStop])

/-- Method `destroy` (lines 297–312): clears the flags, kills every tracked child,
clears the child map and timers, empties the flat task list, the slot array
and both index sets, and fires the destroy hook.  `taskGroups` is NOT
cleared, and the before/after-stop hooks do not run. -/
def destroy (sig : String) (s : MgrState) : MgrState × List Event :=
  ({ s with
      isProcessing := false
      isPaused := false
      children := []
      timeouts := []
      tasks := []
      threads := []
      processing := []
      processed := [] },
   (s.children.map (fun i => Event.kill i sig)) ++ [Event.onDestroy])

/-- The `findIndex` predicate of the flat dispatch loop (lines 178–180):
the spec at `i` is non-null, `i` is neither in-flight nor completed, and
its status is not `cancelled`. -/
def eligible (s : MgrState) (i : Nat) : Bool :=
  (s.tasks.getD i none).isSome && !(s.processing.contains i) && !(s.processed.contains i)
    && !(alookup s.taskStatus i == some TStatus.cancelled)

/-- Linear scan from `start` over `fuel` consecutive indices, returning the
first satisfying index — the evaluation order of `Array.findIndex`. -/
def findIdxFrom (p : Nat → Bool) : Nat → Nat → Option Nat
  | _, 0 => none
  | start, fuel + 1 => if p start then some start else findIdxFrom p (start + 1) fuel

/-- The scan `this.tasks.findIndex(...)` of the dispatch loop: lowest eligible index. -/
def findNext (s : MgrState) : Option Nat :=
  findIdxFrom (eligible s) 0 s.tasks.length

/-- One iteration of the dispatch `for`-loop (lines 176–200) for slot `t`:
if the slot is idle and an eligible task exists, assign it, mark it
`running`, fire the pre-run hook, spawn its process (recording the live
child and arming its deadline timer). -/
def assignSlot (t : Nat) (s : MgrState) : MgrState × List Event :=
  match s.threads.getD t none with
  | some _ => (s, [])
  | none =>
    match findNext s with
    | none => (s, [])
    | some i =>
      let tk := (s.tasks.getD i none).getD default
      ({ s with
          threads := s.threads.set t (some i)
          processing := s.processing ++ [i]
          taskStatus := (i, TStatus.running) :: s.taskStatus
          children := i :: s.children
          timeouts := i :: s.timeouts
          spawned := s.spawned ++ [i] },
       [Event.beforeRunTask t i, Event.spawn t i tk.command])

/-- One full dispatch tick: the `for (let t = 0; ...)` loop over all slot
indices, each iteration seeing the state left by the previous one. -/
def dispatchTick (s : MgrState) : MgrState × List Event :=
  (List.range s.totalThreads).foldl
    (fun acc t =>
      let r := assignSlot t acc.1
      (r.1, acc.2 ++ r.2))
    (s, [])

/-- Per-task retry counter with the source's `|| 0` default. -/
def retryGet (s : MgrState) (i : Nat) : Nat := (alookup s.retryCount i).getD 0

/-- The `close` handler of a flat-mode child (lines 212–244), for the task
`idx` spawned on slot `t`, with accumulated `stdout`/`stderr` and the exit
`code` (`none` models Node's `null`, i.e. signal-terminated).  Disarms the
timer, drops the child, moves `idx` from in-flight to completed, frees the
captured slot, fires after-run / on-stop (and, on nonzero exit, the error
hook with the accumulated stderr), then branches: code 0 → `done`; else
`failed`, bump both retry counters, and either re-queue (drop from
`processed`, fire retry hook), halt the scheduler when the global ceiling is
exceeded, or leave the task permanently failed. -/
def handleClose (t idx : Nat) (code : Option Int) (stdout stderr : String)
    (s : MgrState) : MgrState × List Event :=
  let s1 : MgrState :=
    { s with
      timeouts := s.timeouts.filter (fun j => j ≠ idx)
      children := s.children.filter (fun j => j ≠ idx)
      processing := s.processing.filter (fun j => j ≠ idx)
      processed := pushIfAbsent s.processed idx
      threads := s.threads.set t none }
  let evs := [Event.afterRunTask t idx code stdout stderr, Event.onStopTask idx]
  if code = some 0 then
    ({ s1 with taskStatus := (idx, TStatus.done) :: s1.taskStatus },
     evs ++ [Event.taskDone idx])
  else
    let evs := evs ++ [Event.taskError t idx code stderr]
    let rc := retryGet s1 idx + 1
    let s2 : MgrState :=
      { s1 with
        taskStatus := (idx, TStatus.failed) :: s1.taskStatus
        retryCount := (idx, rc) :: s1.retryCount
        globalRetryCount := s1.globalRetryCount + 1 }
    if rc ≤ s2.maxRetry && s2.globalRetryCount ≤ s2.globalRetryLimit then
      ({ s2 with processed := s2.processed.filter (fun j => j ≠ idx) },
       evs ++ [Event.taskRetry idx rc])
    else if s2.globalRetryLimit < s2.globalRetryCount then
      ({ s2 with isProcessing := false }, evs)
    else
      (s2, evs)

/-- Environment oracle: for a (lane-or-attempt, index) pair, the exit code
(`none` = killed by signal) and the accumulated stdout / stderr of the
corresponding process. -/
def Oracle : Type := Nat → Nat → Option Int × String × String

/-- The slot on which a live child `i` runs: the slot holding `some i`. -/
def threadOf (s : MgrState) (i : Nat) : Nat :=
  s.threads.findIdx (fun x => x == some i)

/-- Deliver a `close` notification for every currently live child, in map
order — the environment schedule in which each spawned process terminates
before the next polling tick.  For child `i` the oracle is consulted at
`(attempt number of i, i)`. -/
def deliverAll (exitOf : Oracle) (s : MgrState) : MgrState × List Event :=
  s.children.foldl
    (fun acc i =>
      let st := acc.1
      let r := handleClose (threadOf st i) i (exitOf (st.spawned.count i) i).1
        (exitOf (st.spawned.count i) i).2.1 (exitOf (st.spawned.count i) i).2.2 st
      (r.1, acc.2 ++ r.2))
    (s, [])

/-- Fueled driver for the `runSingle` polling loop (lines 169–250) under the
`deliverAll` schedule: while the processing flag is set and the completed
count is below the task count, tick (dispatch to idle slots) and deliver the
resulting closes; when the loop condition fails, clear the flag and fire the
overall-completion hook with the task count — exactly the code's epilogue,
which runs even when the loop was halted externally. -/
def flatRun (exitOf : Oracle) : Nat → MgrState → List Event → MgrState × List Event
  | 0, s, acc => (s, acc)
  | fuel + 1, s, acc =>
    if s.isProcessing && s.processed.length < s.tasks.length then
      if s.isPaused then flatRun exitOf fuel s acc
      else
        let r1 := dispatchTick s
        let r2 := deliverAll exitOf r1.1
        flatRun exitOf fuel r2.1 (acc ++ r1.2 ++ r2.2)
    else
      ({ s with isProcessing := false }, acc ++ [Event.allDone s.tasks.length])

/-- The `close` handler of a grouped task (lines 269–278): status `done` plus
the done hook on exit 0, else status `failed` plus the error hook with the
accumulated stderr.  No retry, no timers, no slot bookkeeping. -/
def runGroupTaskClose (g tIdx : Nat) (code : Option Int) (stderr : String)
    (s : MgrState) : MgrState × List Event :=
  if code = some 0 then
    ({ s with taskStatus := (tIdx, TStatus.done) :: s.taskStatus }, [Event.taskDone tIdx])
  else
    ({ s with taskStatus := (tIdx, TStatus.failed) :: s.taskStatus },
     [Event.taskError g tIdx code stderr])

/-- The `for (const [tIdx, task] of group.entries())` body of `runGroups`
(lines 286–289), from position `k` on: while the processing flag is set,
spawn task `k`, wait for its close (`runSingleTask`, lines 253–280), handle
the outcome, and continue with the rest; a cleared flag breaks the loop. -/
def runLaneAux (exitOf : Oracle) (g : Nat) : Nat → List Task → MgrState → MgrState × List Event
  | _, [], s => (s, [])
  | k, tk :: rest, s =>
    if s.isProcessing then
      let r1 := runGroupTaskClose g k (exitOf g k).1 (exitOf g k).2.2 s
      let r2 := runLaneAux exitOf g (k + 1) rest r1.1
      (r2.1, [Event.spawn g k tk.command, Event.closed g k] ++ r1.2 ++ r2.2)
    else (s, [])

/-- One full lane: the sequential task loop followed by the per-group
completion hook (line 290), which fires regardless of the break. -/
def runLane (exitOf : Oracle) (g : Nat) (group : List Task) (s : MgrState) :
    MgrState × List Event :=
  let r := runLaneAux exitOf g 0 group s
  (r.1, r.2 ++ [Event.groupDone g])

/-- All lanes of `runGroups` (lines 283–292).  In the source the lanes run
concurrently under `Promise.all`; their state effects touch disjoint
concerns per step, and this driver serialises them lane by lane. -/
def runGroupsAux (exitOf : Oracle) : Nat → List (List Task) → MgrState → MgrState × List Event
  | _, [], s => (s, [])
  | g, grp :: rest, s =>
    let r1 := runLane exitOf g grp s
    let r2 := runGroupsAux exitOf (g + 1) rest r1.1
    (r2.1, r1.2 ++ r2.2)

/-- Method `runGroups` (lines 283–295): run every lane; when all lanes resolve,
clear the processing flag and fire the overall-completion hook with the
lane count. -/
def runGroups (exitOf : Oracle) (s : MgrState) : MgrState × List Event :=
  let r := runGroupsAux exitOf 0 s.taskGroups s
  ({ r.1 with isProcessing := false }, r.2 ++ [Event.allDone s.taskGroups.length])

/-- Method `start` (lines 98–113): rejected while already processing; otherwise
set the flags, re-null the slots, and enter grouped mode when any lanes are
registered, else the flat loop. -/
def start (exitOf : Oracle) (fuel : Nat) (s : MgrState) : MgrState × List Event :=
  if s.isProcessing then (s, [])
  else
    let s1 : MgrState :=
      { s with
        isProcessing := true
        isPaused := false
        threads := List.replicate s.totalThreads none }
    if 0 < s.taskGroups.length then runGroups exitOf s1
    else flatRun exitOf fuel s1 []

/-- State component of one dispatch-loop iteration for slot `t`. -/
def assignSt (s : MgrState) (t : Nat) : MgrState := (assignSlot t s).1

/-- A single step of the flat scheduler in an undisturbed run (no task-level
stop): a dispatch tick; a close notification for the task currently held by
slot `t`; pausing; resuming; cancelling. -/
inductive FlatStep : MgrState → MgrState → Prop where
  | tick (s : MgrState) : FlatStep s (dispatchTick s).1
  | close (s : MgrState) (t i : Nat) (code : Option Int) (o e : String)
      (hslot : s.threads.getD t none = some i) :
      FlatStep s (handleClose t i code o e s).1
  | pause (s : MgrState) : FlatStep s { s with isPaused := true }
  | resume (s : MgrState) : FlatStep s { s with isPaused := false, isProcessing := true }
  | cancel (s : MgrState) (i : Nat) : FlatStep s (cancelTask i s)

/-- Reachability under undisturbed flat scheduling. -/
def Flat : MgrState → MgrState → Prop := Relation.ReflTransGen FlatStep

/-- A single step of the full scheduler API: a dispatch tick; a close
notification for any task that was ever spawned (including one whose
process was already killed by `stopTask`); a task-level stop; a global stop;
cancelling; pausing; resuming. -/
inductive SchedStep : MgrState → MgrState → Prop where
  | tick (s : MgrState) : SchedStep s (dispatchTick s).1
  | close (s : MgrState) (t i : Nat) (code : Option Int) (o e : String)
      (hsp : i ∈ s.spawned) :
      SchedStep s (handleClose t i code o e s).1
  | stopT (s : MgrState) (i : Nat) (sig : String) : SchedStep s (stopTask i sig s).1
  | stopAll (s : MgrState) (sig : String) : SchedStep s (stop sig s).1
  | cancel (s : MgrState) (i : Nat) : SchedStep s (cancelTask i s)
  | pause (s : MgrState) : SchedStep s { s with isPaused := true }
  | resume (s : MgrState) : SchedStep s { s with isPaused := false, isProcessing := true }

/-- Reachability under the full scheduler API. -/
def Sched : MgrState → MgrState → Prop := Relation.ReflTransGen SchedStep

/-! ### Basic lemmas about the linear scan and the fold of the dispatch loop -/

theorem findIdxFrom_eq_some {p : Nat → Bool} :
    ∀ {fuel start i : Nat}, findIdxFrom p start fuel = some i →
      p i = true ∧ start ≤ i ∧ i < start + fuel ∧ ∀ j, start ≤ j → j < i → p j = false := by
  intro fuel
  induction fuel with
  | zero => intro start i h; simp [findIdxFrom] at h
  | succ n ih =>
    intro start i h
    rw [findIdxFrom] at h
    by_cases hp : p start = true
    · rw [if_pos hp] at h
      have hsi : start = i := Option.some.inj h
      subst hsi
      exact ⟨hp, le_refl _, by omega, fun j h1 h2 => absurd h2 (by omega)⟩
    · rw [if_neg hp] at h
      obtain ⟨h1, h2, h3, h4⟩ := ih h
      refine ⟨h1, by omega, by omega, fun j hj1 hj2 => ?_⟩
      rcases Nat.eq_or_lt_of_le hj1 with heq | hlt
      · subst heq; exact Bool.not_eq_true _ ▸ hp
      · exact h4 j hlt hj2

theorem findNext_eq_some {s : MgrState} {i : Nat} (h : findNext s = some i) :
    eligible s i = true ∧ i < s.tasks.length ∧ ∀ j, j < i → eligible s j = false := by
  obtain ⟨h1, _, h3, h4⟩ := findIdxFrom_eq_some h
  exact ⟨h1, by omega, fun j hj => h4 j (Nat.zero_le j) hj⟩

theorem eligible_task_isSome {s : MgrState} {i : Nat} (h : eligible s i = true) :
    (s.tasks.getD i none).isSome = true := by
  unfold eligible at h
  exact (Bool.and_eq_true_iff.mp
    (Bool.and_eq_true_iff.mp (Bool.and_eq_true_iff.mp h).1).1).1

theorem foldl_acc_fst {α β γ : Type} (f : β → α → α × List γ) :
    ∀ (l : List β) (s : α) (evs : List γ),
      (l.foldl (fun acc t => ((f t acc.1).1, acc.2 ++ (f t acc.1).2)) (s, evs)).1
        = l.foldl (fun st t => (f t st).1) s := by
  intro l
  induction l with
  | nil => intro s evs; rfl
  | cons b l ih => intro s evs; exact ih _ _

theorem dispatchTick_fst (s : MgrState) :
    (dispatchTick s).1 = (List.range s.totalThreads).foldl assignSt s :=
  foldl_acc_fst assignSlot (List.range s.totalThreads) s []

theorem foldl_state_inv {α β : Type} (P : α → Prop) (f : α → β → α)
    (hf : ∀ s b, P s → P (f s b)) :
    ∀ (l : List β) (s : α), P s → P (l.foldl f s) := by
  intro l
  induction l with
  | nil => intro s hs; exact hs
  | cons b l ih => intro s hs; exact ih _ (hf s b hs)

/-! ### Field projections of the transition functions -/

theorem assignSt_tasks (s : MgrState) (t : Nat) : (assignSt s t).tasks = s.tasks := by
  unfold assignSt assignSlot
  rcases s.threads.getD t none with _ | _
  · rcases findNext s with _ | _ <;> rfl
  · rfl

theorem assignSt_processed (s : MgrState) (t : Nat) : (assignSt s t).processed = s.processed := by
  unfold assignSt assignSlot
  rcases s.threads.getD t none with _ | _
  · rcases findNext s with _ | _ <;> rfl
  · rfl

theorem handleClose_tasks (t idx : Nat) (code : Option Int) (o e : String) (s : MgrState) :
    (handleClose t idx code o e s).1.tasks = s.tasks := by
  unfold handleClose
  dsimp only
  repeat' split
  all_goals rfl

theorem handleClose_spawned (t idx : Nat) (code : Option Int) (o e : String) (s : MgrState) :
    (handleClose t idx code o e s).1.spawned = s.spawned := by
  unfold handleClose
  dsimp only
  repeat' split
  all_goals rfl

theorem handleClose_children (t idx : Nat) (code : Option Int) (o e : String) (s : MgrState) :
    (handleClose t idx code o e s).1.children = s.children.filter (fun j => j ≠ idx) := by
  unfold handleClose
  dsimp only
  repeat' split
  all_goals rfl

theorem handleClose_threads (t idx : Nat) (code : Option Int) (o e : String) (s : MgrState) :
    (handleClose t idx code o e s).1.threads = s.threads.set t none := by
  unfold handleClose
  dsimp only
  repeat' split
  all_goals rfl

theorem handleClose_totalThreads (t idx : Nat) (code : Option Int) (o e : String) (s : MgrState) :
    (handleClose t idx code o e s).1.totalThreads = s.totalThreads := by
  unfold handleClose
  dsimp only
  repeat' split
  all_goals rfl

theorem handleClose_processing (t idx : Nat) (code : Option Int) (o e : String) (s : MgrState) :
    (handleClose t idx code o e s).1.processing = s.processing.filter (fun j => j ≠ idx) := by
  unfold handleClose
  dsimp only
  repeat' split
  all_goals rfl

theorem handleClose_processed (t idx : Nat) (code : Option Int) (o e : String) (s : MgrState) :
    (handleClose t idx code o e s).1.processed = pushIfAbsent s.processed idx ∨
    (handleClose t idx code o e s).1.processed
        = (pushIfAbsent s.processed idx).filter (fun j => j ≠ idx) := by
  unfold handleClose
  dsimp only
  repeat' split
  all_goals first | exact Or.inl rfl | exact Or.inr rfl

theorem assignSlot_split (t : Nat) (s : MgrState) :
    assignSlot t s = (s, []) ∨
    ∃ j, findNext s = some j ∧ s.threads.getD t none = none ∧
      assignSlot t s =
        ({ s with
            threads := s.threads.set t (some j)
            processing := s.processing ++ [j]
            taskStatus := (j, TStatus.running) :: s.taskStatus
            children := j :: s.children
            timeouts := j :: s.timeouts
            spawned := s.spawned ++ [j] },
         [Event.beforeRunTask t j,
          Event.spawn t j ((s.tasks.getD j none).getD default).command]) := by
  unfold assignSlot
  rcases hth : s.threads.getD t none with _ | k
  · rcases hf : findNext s with _ | j
    · exact Or.inl rfl
    · exact Or.inr ⟨j, rfl, rfl, rfl⟩
  · exact Or.inl rfl

theorem nodup_pushIfAbsent {l : List Nat} {a : Nat} (h : l.Nodup) :
    (pushIfAbsent l a).Nodup := by
  unfold pushIfAbsent
  split
  · exact h
  · next ha => simp [List.nodup_append, h, ha]

theorem mem_pushIfAbsent {l : List Nat} {a b : Nat} :
    b ∈ pushIfAbsent l a ↔ b ∈ l ∨ b = a := by
  unfold pushIfAbsent
  split
  · next ha =>
    constructor
    · exact Or.inl
    · rintro (hb | rfl)
      · exact hb
      · exact ha
  · simp

theorem getD_set_none : ∀ (l : List (Option Task)) (j i : Nat),
    l.getD i none = none → (l.set j none).getD i none = none := by
  intro l
  induction l with
  | nil => intro j i _; cases j <;> simp [List.set]
  | cons a l ih =>
    intro j i h
    cases j with
    | zero =>
      cases i with
      | zero => simp [List.set]
      | succ i => simpa [List.set] using h
    | succ j =>
      cases i with
      | zero => simpa [List.set] using h
      | succ i => exact ih j i (by simpa using h)

/-! ### The cancelled-task invariant (claims about permanent skipping)

For a task index `i` cancelled before ever being dispatched: its spec stays
nulled, it is never spawned, and it never enters the completed set; the
completed set stays duplicate-free and within bounds. -/

structure CInv (i : Nat) (s : MgrState) : Prop where
  tnull : s.tasks.getD i none = none
  ilt : i < s.tasks.length
  nsp : i ∉ s.spawned
  nproc : i ∉ s.processed
  nd : s.processed.Nodup
  pbound : ∀ j ∈ s.processed, j < s.tasks.length
  sbound : ∀ j ∈ s.spawned, j < s.tasks.length
  csub : ∀ j ∈ s.children, j ∈ s.spawned

theorem assignSt_CInv {i : Nat} {s : MgrState} (h : CInv i s) (t : Nat) :
    CInv i (assignSt s t) := by
  unfold assignSt
  rcases assignSlot_split t s with heq | ⟨j, hf, _, heq⟩
  · rw [heq]; exact h
  · rw [heq]
    obtain ⟨he, hlt, _⟩ := findNext_eq_some hf
    have hji : j ≠ i := by
      intro heq2
      subst heq2
      have hs := eligible_task_isSome he
      rw [h.tnull] at hs
      exact absurd hs (by simp)
    refine ⟨h.tnull, h.ilt, ?_, h.nproc, h.nd, h.pbound, ?_, ?_⟩
    · intro hm
      rcases List.mem_append.mp hm with hm | hm
      · exact h.nsp hm
      · have hij : i = j := by simpa using hm
        exact hji hij.symm
    · intro j' hj'
      rcases List.mem_append.mp hj' with hj' | hj'
      · exact h.sbound j' hj'
      · have hjj : j' = j := by simpa using hj'
        subst hjj; exact hlt
    · intro j' hj'
      rcases List.mem_cons.mp hj' with hjj | hj'
      · subst hjj; exact List.mem_append.mpr (Or.inr (by simp))
      · exact List.mem_append.mpr (Or.inl (h.csub j' hj'))

theorem handleClose_CInv {i idx : Nat} {s : MgrState} (h : CInv i s)
    (hsp : idx ∈ s.spawned) (t : Nat) (code : Option Int) (o e : String) :
    CInv i (handleClose t idx code o e s).1 := by
  have hni : idx ≠ i := fun he => h.nsp (he ▸ hsp)
  have hlt : idx < s.tasks.length := h.sbound idx hsp
  have hp1 : ∀ j ∈ pushIfAbsent s.processed idx, j < s.tasks.length := by
    intro j hj
    rcases mem_pushIfAbsent.mp hj with hj | heq
    · exact h.pbound j hj
    · subst heq; exact hlt
  have hnd1 : (pushIfAbsent s.processed idx).Nodup := nodup_pushIfAbsent h.nd
  have hni1 : i ∉ pushIfAbsent s.processed idx := by
    intro hm
    rcases mem_pushIfAbsent.mp hm with hm | heq
    · exact h.nproc hm
    · exact hni heq.symm
  constructor
  · rw [handleClose_tasks]; exact h.tnull
  · rw [handleClose_tasks]; exact h.ilt
  · rw [handleClose_spawned]; exact h.nsp
  · rcases handleClose_processed t idx code o e s with hp | hp <;> rw [hp]
    · exact hni1
    · intro hm; exact hni1 (List.mem_of_mem_filter hm)
  · rcases handleClose_processed t idx code o e s with hp | hp <;> rw [hp]
    · exact hnd1
    · exact List.Nodup.filter _ hnd1
  · rw [handleClose_tasks]
    rcases handleClose_processed t idx code o e s with hp | hp <;> rw [hp]
    · exact hp1
    · intro j hj; exact hp1 j (List.mem_of_mem_filter hj)
  · rw [handleClose_spawned, handleClose_tasks]; exact h.sbound
  · rw [handleClose_children, handleClose_spawned]
    intro j hj
    exact h.csub j (List.mem_of_mem_filter hj)

theorem stopTask_CInv {i j : Nat} {s : MgrState} (h : CInv i s) (sig : String) :
    CInv i (stopTask j sig s).1 := by
  unfold stopTask
  split
  · next hj =>
    have hjs : j ∈ s.spawned := h.csub j hj
    have hji : j ≠ i := fun he => h.nsp (he ▸ hjs)
    have hjl : j < s.tasks.length := h.sbound j hjs
    refine ⟨h.tnull, h.ilt, h.nsp, ?_, nodup_pushIfAbsent h.nd, ?_, h.sbound, ?_⟩
    · intro hm
      rcases mem_pushIfAbsent.mp hm with hm | heq
      · exact h.nproc hm
      · exact hji heq.symm
    · intro j' hj'
      rcases mem_pushIfAbsent.mp hj' with hj' | heq
      · exact h.pbound j' hj'
      · subst heq; exact hjl
    · intro j' hj'
      exact h.csub j' (List.mem_of_mem_filter hj')
  · exact ⟨h.tnull, h.ilt, h.nsp, h.nproc, h.nd, h.pbound, h.sbound, h.csub⟩

theorem stop_CInv {i : Nat} {s : MgrState} (h : CInv i s) (sig : String) :
    CInv i (stop sig s).1 :=
  ⟨h.tnull, h.ilt, h.nsp, List.not_mem_nil i, List.nodup_nil,
   fun j hj => absurd hj (List.not_mem_nil j), h.sbound,
   fun j hj => absurd hj (List.not_mem_nil j)⟩

theorem cancelTask_CInv {i j : Nat} {s : MgrState} (h : CInv i s) :
    CInv i (cancelTask j s) := by
  unfold cancelTask
  split
  · exact h
  · have hlen : (s.tasks.set j none).length = s.tasks.length := List.length_set s.tasks j none
    refine ⟨getD_set_none s.tasks j i h.tnull, ?_, h.nsp, h.nproc, h.nd, ?_, ?_, h.csub⟩
    · rw [hlen]; exact h.ilt
    · intro j' hj'; rw [hlen]; exact h.pbound j' hj'
    · intro j' hj'; rw [hlen]; exact h.sbound j' hj'

theorem schedStep_CInv {i : Nat} {s s' : MgrState} (h : CInv i s)
    (hst : SchedStep s s') : CInv i s' := by
  cases hst with
  | tick =>
    rw [dispatchTick_fst]
    exact foldl_state_inv (CInv i) assignSt (fun s t hs => assignSt_CInv hs t) _ s h
  | close t j code o e hsp => exact handleClose_CInv h hsp t code o e
  | stopT j sig => exact stopTask_CInv h sig
  | stopAll sig => exact stop_CInv h sig
  | cancel j => exact cancelTask_CInv h
  | pause => exact ⟨h.tnull, h.ilt, h.nsp, h.nproc, h.nd, h.pbound, h.sbound, h.csub⟩
  | resume => exact ⟨h.tnull, h.ilt, h.nsp, h.nproc, h.nd, h.pbound, h.sbound, h.csub⟩

theorem sched_CInv {i : Nat} {s s' : MgrState} (h : CInv i s) (hr : Sched s s') :
    CInv i s' := by
  induction hr with
  | refl => exact h
  | tail _ hstep ih => exact schedStep_CInv ih hstep

theorem CInv_processed_lt {i : Nat} {s : MgrState} (h : CInv i s) :
    s.processed.length < s.tasks.length := by
  classical
  have hsub : s.processed.toFinset ⊆ (Finset.range s.tasks.length).erase i := by
    intro j hj
    have hj' := List.mem_toFinset.mp hj
    exact Finset.mem_erase.mpr
      ⟨fun he => h.nproc (he ▸ hj'), Finset.mem_range.mpr (h.pbound j hj')⟩
  have hcard := Finset.card_le_card hsub
  rw [List.toFinset_card_of_nodup h.nd] at hcard
  rw [Finset.card_erase_of_mem (Finset.mem_range.mpr h.ilt), Finset.card_range] at hcard
  have hpos := h.ilt
  omega

/-! ### Preservation of a nulled spec, and the single-slot invariant -/

theorem findNext_ne_of_null {s : MgrState} {i : Nat} (h : s.tasks.getD i none = none) :
    findNext s ≠ some i := by
  intro hf
  have he := (findNext_eq_some hf).1
  have hs := eligible_task_isSome he
  rw [h] at hs
  exact absurd hs (by simp)

theorem schedStep_tnull {i : Nat} {s s' : MgrState} (h : s.tasks.getD i none = none)
    (hst : SchedStep s s') : s'.tasks.getD i none = none := by
  cases hst with
  | tick =>
    rw [dispatchTick_fst]
    exact foldl_state_inv (fun st => st.tasks.getD i none = none) assignSt
      (fun st t hs => by
        show (assignSt st t).tasks.getD i none = none
        rw [assignSt_tasks]; exact hs) _ s h
  | close t j code o e hsp => rw [handleClose_tasks]; exact h
  | stopT j sig =>
    unfold stopTask
    split
    · exact h
    · exact h
  | stopAll sig => exact h
  | cancel j =>
    unfold cancelTask
    split
    · exact h
    · exact getD_set_none s.tasks j i h
  | pause => exact h
  | resume => exact h

theorem sched_tnull {i : Nat} {s s' : MgrState} (h : s.tasks.getD i none = none)
    (hr : Sched s s') : s'.tasks.getD i none = none := by
  induction hr with
  | refl => exact h
  | tail _ hstep ih => exact schedStep_tnull ih hstep

/-- Single-slot invariant: with one configured worker slot, the slot array
is the singleton matching the in-flight set. -/
def Inv1 (s : MgrState) : Prop :=
  s.totalThreads = 1 ∧
  ((s.threads = [none] ∧ s.processing = []) ∨
    ∃ j, s.threads = [some j] ∧ s.processing = [j])

theorem tick_Inv1 {s : MgrState} (h : Inv1 s) : Inv1 (dispatchTick s).1 := by
  obtain ⟨h1, h2⟩ := h
  rw [dispatchTick_fst, h1]
  show Inv1 (assignSt s 0)
  unfold assignSt
  rcases assignSlot_split 0 s with heq | ⟨j, hf, hth, heq⟩
  · rw [heq]; exact ⟨h1, h2⟩
  · rw [heq]
    rcases h2 with ⟨hth2, hpr⟩ | ⟨k, hth2, hpr⟩
    · refine ⟨h1, Or.inr ⟨j, ?_, ?_⟩⟩
      · show s.threads.set 0 (some j) = [some j]
        rw [hth2]; rfl
      · show s.processing ++ [j] = [j]
        rw [hpr]; rfl
    · rw [hth2] at hth
      exact absurd hth (by simp)

theorem close_Inv1 {s : MgrState} {t i : Nat} (h : Inv1 s)
    (hslot : s.threads.getD t none = some i) (code : Option Int) (o e : String) :
    Inv1 (handleClose t i code o e s).1 := by
  obtain ⟨h1, h2⟩ := h
  rcases h2 with ⟨hth, hpr⟩ | ⟨k, hth, hpr⟩
  · rw [hth] at hslot
    have hnone : ([none] : List (Option Nat)).getD t none = none := by
      cases t with
      | zero => rfl
      | succ t => rfl
    rw [hnone] at hslot
    exact Option.noConfusion hslot
  · have ht0 : t = 0 := by
      cases t with
      | zero => rfl
      | succ t =>
        rw [hth] at hslot
        exact absurd hslot (by simp [List.getD])
    subst ht0
    rw [hth] at hslot
    have hik : i = k := (Option.some.inj hslot).symm
    subst hik
    refine ⟨by rw [handleClose_totalThreads]; exact h1, Or.inl ⟨?_, ?_⟩⟩
    · rw [handleClose_threads, hth]; rfl
    · rw [handleClose_processing, hpr]; simp

theorem flatStep_Inv1 {s s' : MgrState} (h : Inv1 s) (hst : FlatStep s s') : Inv1 s' := by
  cases hst with
  | tick => exact tick_Inv1 h
  | close t i code o e hslot => exact close_Inv1 h hslot code o e
  | pause => exact ⟨h.1, h.2⟩
  | resume => exact ⟨h.1, h.2⟩
  | cancel i =>
    unfold cancelTask
    split
    · exact h
    · exact ⟨h.1, h.2⟩

theorem flat_Inv1 {s s' : MgrState} (h : Inv1 s) (hr : Flat s s') : Inv1 s' := by
  induction hr with
  | refl => exact h
  | tail _ hstep ih => exact flatStep_Inv1 ih hstep

theorem Inv1_processing_le {s : MgrState} (h : Inv1 s) : s.processing.length ≤ 1 := by
  rcases h.2 with ⟨_, hp⟩ | ⟨j, _, hp⟩ <;> rw [hp] <;> simp

/-! ### Grouped-mode trace lemmas -/

/-- Closed form of one lane's event trace when the processing flag stays
set: spawn, close, outcome for each task in order. -/
def laneTrace (exitOf : Oracle) (g : Nat) : Nat → List Task → List Event
  | _, [] => []
  | k, tk :: rest =>
    [Event.spawn g k tk.command, Event.closed g k] ++
    (if (exitOf g k).1 = some 0 then [Event.taskDone k]
     else [Event.taskError g k (exitOf g k).1 (exitOf g k).2.2]) ++
    laneTrace exitOf g (k + 1) rest

/-- Closed form of the whole grouped run's trace (lanes serialised). -/
def groupsTrace (exitOf : Oracle) : Nat → List (List Task) → List Event
  | _, [] => []
  | g, grp :: rest =>
    (laneTrace exitOf g 0 grp ++ [Event.groupDone g]) ++ groupsTrace exitOf (g + 1) rest

/-- Recogniser for a spawn of task `k` on lane `g`. -/
def isSpawnIdx (g k : Nat) : Event → Bool
  | Event.spawn g' k' _ => g' = g && k' = k
  | _ => false

/-- Recogniser for the per-group completion hook. -/
def isGroupDoneEv : Event → Bool
  | Event.groupDone _ => true
  | _ => false

/-- Recogniser for the events grouped mode must never produce: retry hooks,
timeout hooks and kills. -/
def isRetryTimeoutKill : Event → Bool
  | Event.taskRetry _ _ => true
  | Event.taskTimeout _ => true
  | Event.kill _ _ => true
  | _ => false

theorem runGroupTaskClose_isProcessing (g k : Nat) (code : Option Int) (e : String)
    (s : MgrState) : (runGroupTaskClose g k code e s).1.isProcessing = s.isProcessing := by
  unfold runGroupTaskClose
  split <;> rfl

theorem runGroupTaskClose_snd (g k : Nat) (code : Option Int) (e : String) (s : MgrState) :
    (runGroupTaskClose g k code e s).2
      = if code = some 0 then [Event.taskDone k] else [Event.taskError g k code e] := by
  unfold runGroupTaskClose
  split <;> simp_all

theorem runLaneAux_isProcessing (exitOf : Oracle) (g : Nat) :
    ∀ (grp : List Task) (k : Nat) (s : MgrState),
      (runLaneAux exitOf g k grp s).1.isProcessing = s.isProcessing := by
  intro grp
  induction grp with
  | nil => intro k s; rfl
  | cons tk rest ih =>
    intro k s
    unfold runLaneAux
    split
    · dsimp only
      rw [ih, runGroupTaskClose_isProcessing]
    · rfl

theorem runLaneAux_trace (exitOf : Oracle) (g : Nat) :
    ∀ (grp : List Task) (k : Nat) (s : MgrState), s.isProcessing = true →
      (runLaneAux exitOf g k grp s).2 = laneTrace exitOf g k grp := by
  intro grp
  induction grp with
  | nil => intro k s _; rfl
  | cons tk rest ih =>
    intro k s h
    unfold runLaneAux
    rw [if_pos h]
    dsimp only
    rw [ih (k + 1) _ (by rw [runGroupTaskClose_isProcessing]; exact h)]
    rw [runGroupTaskClose_snd]
    simp [laneTrace]

theorem runGroupsAux_trace (exitOf : Oracle) :
    ∀ (gs : List (List Task)) (g : Nat) (s : MgrState), s.isProcessing = true →
      (runGroupsAux exitOf g gs s).2 = groupsTrace exitOf g gs ∧
      (runGroupsAux exitOf g gs s).1.isProcessing = true := by
  intro gs
  induction gs with
  | nil => intro g s h; exact ⟨rfl, h⟩
  | cons grp rest ih =>
    intro g s h
    unfold runGroupsAux runLane
    dsimp only
    have h1 : (runLaneAux exitOf g 0 grp s).1.isProcessing = true := by
      rw [runLaneAux_isProcessing]; exact h
    obtain ⟨ht, hp⟩ := ih (g + 1) _ h1
    constructor
    · rw [ht, runLaneAux_trace exitOf g grp 0 s h]
      simp [groupsTrace]
    · exact hp

theorem laneTrace_no_groupDone (exitOf : Oracle) (g : Nat) :
    ∀ (grp : List Task) (k : Nat),
      (laneTrace exitOf g k grp).countP isGroupDoneEv = 0 := by
  intro grp
  induction grp with
  | nil => intro k; rfl
  | cons tk rest ih =>
    intro k
    unfold laneTrace
    rw [List.countP_append, List.countP_append, ih]
    split <;> simp [isGroupDoneEv, List.countP_cons]

theorem groupsTrace_groupDone_count (exitOf : Oracle) :
    ∀ (gs : List (List Task)) (g : Nat),
      (groupsTrace exitOf g gs).countP isGroupDoneEv = gs.length := by
  intro gs
  induction gs with
  | nil => intro g; rfl
  | cons grp rest ih =>
    intro g
    unfold groupsTrace
    rw [List.countP_append, List.countP_append, ih, laneTrace_no_groupDone]
    simp [isGroupDoneEv, List.countP_cons]
    omega

theorem laneTrace_clean (exitOf : Oracle) (g : Nat) :
    ∀ (grp : List Task) (k : Nat), ∀ ev ∈ laneTrace exitOf g k grp,
      isRetryTimeoutKill ev = false := by
  intro grp
  induction grp with
  | nil => intro k ev hev; exact absurd hev (List.not_mem_nil ev)
  | cons tk rest ih =>
    intro k ev hev
    unfold laneTrace at hev
    rcases List.mem_append.mp hev with hev | hev
    · rcases List.mem_append.mp hev with hev | hev
      · rcases List.mem_cons.mp hev with rfl | hev
        · rfl
        · rcases List.mem_cons.mp hev with rfl | hev
          · rfl
          · exact absurd hev (List.not_mem_nil ev)
      · have hcases : ev = Event.taskDone k ∨
            ev = Event.taskError g k (exitOf g k).1 (exitOf g k).2.2 := by
          split at hev
          · exact Or.inl (by simpa using hev)
          · exact Or.inr (by simpa using hev)
        rcases hcases with rfl | rfl <;> rfl
    · exact ih (k + 1) ev hev

theorem groupsTrace_clean (exitOf : Oracle) :
    ∀ (gs : List (List Task)) (g : Nat), ∀ ev ∈ groupsTrace exitOf g gs,
      isRetryTimeoutKill ev = false := by
  intro gs
  induction gs with
  | nil => intro g ev hev; exact absurd hev (List.not_mem_nil ev)
  | cons grp rest ih =>
    intro g ev hev
    unfold groupsTrace at hev
    rcases List.mem_append.mp hev with hev | hev
    · rcases List.mem_append.mp hev with hev | hev
      · exact laneTrace_clean exitOf g grp 0 ev hev
      · rcases List.mem_cons.mp hev with rfl | hev
        · rfl
        · exact absurd hev (List.not_mem_nil ev)
    · exact ih (g + 1) ev hev

theorem laneTrace_sequencing (exitOf : Oracle) (g : Nat) :
    ∀ (grp : List Task) (k0 k : Nat), k + 1 < grp.length →
      List.Sublist
        [Event.closed g (k0 + k),
         Event.spawn g (k0 + k + 1) ((grp.getD (k + 1) default).command)]
        (laneTrace exitOf g k0 grp) := by
  intro grp
  induction grp with
  | nil => intro k0 k hk; simp at hk
  | cons tk rest ih =>
    intro k0 k hk
    cases k with
    | zero =>
      have hrest : rest ≠ [] := by
        intro he; rw [he] at hk; simp at hk
      obtain ⟨tk', rest', rfl⟩ := List.exists_cons_of_ne_nil hrest
      simp only [Nat.add_zero, Nat.zero_add, List.getD_cons_succ, List.getD_cons_zero]
      show List.Sublist [Event.closed g k0, Event.spawn g (k0 + 1) tk'.command]
        (([Event.spawn g k0 tk.command, Event.closed g k0] ++
          (if (exitOf g k0).1 = some 0 then [Event.taskDone k0]
           else [Event.taskError g k0 (exitOf g k0).1 (exitOf g k0).2.2])) ++
          laneTrace exitOf g (k0 + 1) (tk' :: rest'))
      refine List.Sublist.cons _ ?_
      refine List.Sublist.cons₂ _ ?_
      refine List.Sublist.trans ?_ (List.sublist_append_right _ _)
      show List.Sublist [Event.spawn g (k0 + 1) tk'.command]
        (([Event.spawn g (k0 + 1) tk'.command, Event.closed g (k0 + 1)] ++
          (if (exitOf g (k0 + 1)).1 = some 0 then [Event.taskDone (k0 + 1)]
           else [Event.taskError g (k0 + 1) (exitOf g (k0 + 1)).1 (exitOf g (k0 + 1)).2.2])) ++
          laneTrace exitOf g (k0 + 1 + 1) rest')
      exact List.Sublist.cons₂ _ (List.nil_sublist _)
    | succ k =>
      have hk' : k + 1 < rest.length := by simpa using hk
      have hsub := ih (k0 + 1) k hk'
      have harith : k0 + 1 + k = k0 + (k + 1) := by omega
      rw [harith] at hsub
      have hget : (rest.getD (k + 1) default) = ((tk :: rest).getD (k + 1 + 1) default) := by
        simp [List.getD_cons_succ]
      rw [hget] at hsub
      show List.Sublist _
        (([Event.spawn g k0 tk.command, Event.closed g k0] ++
          (if (exitOf g k0).1 = some 0 then [Event.taskDone k0]
           else [Event.taskError g k0 (exitOf g k0).1 (exitOf g k0).2.2])) ++
          laneTrace exitOf g (k0 + 1) rest)
      exact List.Sublist.trans hsub (List.sublist_append_right _ _)

theorem laneTrace_spawn_count (exitOf : Oracle) (g : Nat) :
    ∀ (grp : List Task) (k0 j : Nat),
      (laneTrace exitOf g k0 grp).countP (isSpawnIdx g j)
        = if k0 ≤ j ∧ j < k0 + grp.length then 1 else 0 := by
  intro grp
  induction grp with
  | nil =>
    intro k0 j
    have hcond : ¬(k0 ≤ j ∧ j < k0 + ([] : List Task).length) := by
      simp only [List.length_nil, Nat.add_zero]
      omega
    rw [if_neg hcond]
    rfl
  | cons tk rest ih =>
    intro k0 j
    unfold laneTrace
    rw [List.countP_append, List.countP_append, ih (k0 + 1) j]
    have hbranch :
        (if (exitOf g k0).1 = some 0 then [Event.taskDone k0]
         else [Event.taskError g k0 (exitOf g k0).1 (exitOf g k0).2.2]).countP
          (isSpawnIdx g j) = 0 := by
      split <;> rfl
    rw [hbranch]
    by_cases hj : j = k0
    · subst hj
      have h1 : (([Event.spawn g j tk.command, Event.closed g j] : List Event).countP
          (isSpawnIdx g j)) = 1 := by
        simp [List.countP_cons, isSpawnIdx]
      rw [h1, if_neg (by omega), if_pos (by simp only [List.length_cons]; omega)]
    · have hs : isSpawnIdx g j (Event.spawn g k0 tk.command) = false := by
        simp [isSpawnIdx, Ne.symm hj]
      have hc : isSpawnIdx g j (Event.closed g k0) = false := rfl
      have h1 : (([Event.spawn g k0 tk.command, Event.closed g k0] : List Event).countP
          (isSpawnIdx g j)) = 0 := by
        simp [List.countP_cons, hs, hc]
      rw [h1]
      by_cases hcond : k0 + 1 ≤ j ∧ j < k0 + 1 + rest.length
      · rw [if_pos hcond, if_pos (by simp only [List.length_cons]; omega)]
      · rw [if_neg hcond, if_neg (by
          simp only [List.length_cons]
          intro hc2
          exact hcond (by omega))]

/-! ### Concrete fixtures used by witnesses and counterexamples -/

/-- A one-command task used in concrete scenarios. -/
def tkC : Task := ⟨"c", [], none⟩

/-- The default kill signal of the manager. -/
def sigterm : String := "SIGTERM"

/-- Sample accumulated stdout text. -/
def outS : String := "OUT"

/-- Sample accumulated stderr text. -/
def errS : String := "E"

/-- The empty string. -/
def emptyS : String := ""

/-- An environment in which every process exits with code 1. -/
def oracleFail : Oracle := fun _ _ => (some 1, outS, errS)

/-- An environment in which every process exits with code 0. -/
def oracleOk : Oracle := fun _ _ => (some 0, emptyS, emptyS)

theorem alookup_const_map {α : Type} (v : α) :
    ∀ (l : List Nat) (k : Nat), k ∈ l →
      alookup (l.map (fun i => (i, v))) k = some v := by
  intro l
  induction l with
  | nil => intro k hk; exact absurd hk (List.not_mem_nil k)
  | cons a l ih =>
    intro k hk
    show alookup ((a, v) :: l.map (fun i => (i, v))) k = some v
    unfold alookup
    split
    · rfl
    · next hak =>
      rcases List.mem_cons.mp hk with heq | hk2
      · exact absurd heq.symm hak
      · exact ih k hk2

theorem getD_set_self_none : ∀ (l : List (Option Task)) (j : Nat),
    (l.set j none).getD j none = none := by
  intro l
  induction l with
  | nil => intro j; cases j <;> rfl
  | cons a l ih =>
    intro j
    cases j with
    | zero => rfl
    | succ j => exact ih j

/-- C5 (amended): installing a flat list resets slots, in-flight/completed
sets, per-task retry counters, timers and the status table and marks every
installed task `waiting`; installing grouped lanes performs the same reset
but leaves the status table empty; neither form resets the global retry
counter. -/
theorem install_resets_state (ts : List Task) (gs : List (List Task)) (s : MgrState) :
    ((setTasks ts s).tasks = ts.map some ∧
     (setTasks ts s).taskGroups = [] ∧
     (setTasks ts s).processed = [] ∧
     (setTasks ts s).processing = [] ∧
     (setTasks ts s).threads = List.replicate s.totalThreads none ∧
     (setTasks ts s).children = [] ∧
     (setTasks ts s).retryCount = [] ∧
     (setTasks ts s).timeouts = [] ∧
     (∀ i, i < ts.length → alookup (setTasks ts s).taskStatus i = some TStatus.waiting) ∧
     (setTasks ts s).globalRetryCount = s.globalRetryCount) ∧
    ((setGroupedTasks gs s).taskGroups = gs ∧
     (setGroupedTasks gs s).tasks = [] ∧
     (setGroupedTasks gs s).processed = [] ∧
     (setGroupedTasks gs s).processing = [] ∧
     (setGroupedTasks gs s).threads = List.replicate s.totalThreads none ∧
     (setGroupedTasks gs s).children = [] ∧
     (setGroupedTasks gs s).retryCount = [] ∧
     (setGroupedTasks gs s).timeouts = [] ∧
     (setGroupedTasks gs s).taskStatus = [] ∧
     (setGroupedTasks gs s).globalRetryCount = s.globalRetryCount) := by
  refine ⟨⟨rfl, rfl, rfl, rfl, rfl, rfl, rfl, rfl, ?_, rfl⟩,
    rfl, rfl, rfl, rfl, rfl, rfl, rfl, rfl, rfl, rfl⟩
  intro i hi
  exact alookup_const_map TStatus.waiting (List.range ts.length) i (List.mem_range.mpr hi)

theorem install_resets_state_witness :
    alookup (setTasks [tkC] (initState 1 2 100)).taskStatus 0 = some TStatus.waiting ∧
    (setGroupedTasks [[tkC]] (initState 1 2 100)).taskStatus = [] := by
  have h := install_resets_state [tkC] [[tkC]] (initState 1 2 100)
  exact ⟨h.1.2.2.2.2.2.2.2.2.1 0 (by decide), h.2.2.2.2.2.2.2.2.2.1⟩

/-- C5 counterexample: after installing grouped lanes the single installed
task's status is NOT `waiting` (the status table is empty), and neither
install form resets the global retry counter (here left at 5). -/
theorem install_marks_waiting_cex :
    alookup (setGroupedTasks [[tkC]] { initState 1 2 100 with globalRetryCount := 5 }).taskStatus 0
        ≠ some TStatus.waiting ∧
    (setGroupedTasks [[tkC]] { initState 1 2 100 with globalRetryCount := 5 }).globalRetryCount = 5 ∧
    (setTasks [tkC] { initState 1 2 100 with globalRetryCount := 5 }).globalRetryCount = 5 := by
  refine ⟨?_, rfl, rfl⟩
  decide

/-- C8: cancelling an in-flight task changes nothing; cancelling a task not
in flight records status `cancelled`, nulls its spec, and the flat dispatch
scan never selects that index in any state reachable by further scheduler
steps. -/
theorem cancelTask_semantics (s : MgrState) (i : Nat) :
    (i ∈ s.processing → cancelTask i s = s) ∧
    (i ∉ s.processing →
      alookup (cancelTask i s).taskStatus i = some TStatus.cancelled ∧
      (cancelTask i s).tasks.getD i none = none ∧
      (∀ s', Sched (cancelTask i s) s' → findNext s' ≠ some i)) := by
  constructor
  · intro hp
    unfold cancelTask
    rw [if_pos hp]
  · intro hp
    have h1 : cancelTask i s =
        { s with
          tasks := s.tasks.set i none
          taskStatus := (i, TStatus.cancelled) :: s.taskStatus } := by
      unfold cancelTask
      rw [if_neg hp]
    refine ⟨?_, ?_, ?_⟩
    · rw [h1]
      show alookup ((i, TStatus.cancelled) :: s.taskStatus) i = some TStatus.cancelled
      unfold alookup
      rw [if_pos rfl]
    · rw [h1]
      exact getD_set_self_none s.tasks i
    · intro s' hr
      have hnull : (cancelTask i s).tasks.getD i none = none := by
        rw [h1]
        exact getD_set_self_none s.tasks i
      exact findNext_ne_of_null (sched_tnull hnull hr)

theorem cancelTask_semantics_witness :
    alookup (cancelTask 0 (setTasks [tkC] (initState 1 2 100))).taskStatus 0
        = some TStatus.cancelled ∧
    findNext (cancelTask 0 (setTasks [tkC] (initState 1 2 100))) ≠ some 0 := by
  have h := (cancelTask_semantics (setTasks [tkC] (initState 1 2 100)) 0).2 (by decide)
  exact ⟨h.1, h.2.2 _ Relation.ReflTransGen.refl⟩

/-- C10: a task of a non-empty list cancelled before ever being dispatched
is never added to the completed set by any later scheduler operation, so the
completed count stays strictly below the task count and the flat loop's
normal-termination condition never becomes true. -/
theorem cancelled_never_completed (s : MgrState) (i : Nat)
    (hproc : i ∉ s.processing)
    (hlt : i < s.tasks.length)
    (hns : i ∉ s.spawned)
    (hnp : i ∉ s.processed)
    (hnd : s.processed.Nodup)
    (hpb : ∀ j ∈ s.processed, j < s.tasks.length)
    (hsb : ∀ j ∈ s.spawned, j < s.tasks.length)
    (hcs : ∀ j ∈ s.children, j ∈ s.spawned) :
    alookup (cancelTask i s).taskStatus i = some TStatus.cancelled ∧
    ∀ s', Sched (cancelTask i s) s' →
      i ∉ s'.processed ∧ s'.processed.length < s'.tasks.length := by
  have h1 : cancelTask i s =
      { s with
        tasks := s.tasks.set i none
        taskStatus := (i, TStatus.cancelled) :: s.taskStatus } := by
    unfold cancelTask
    rw [if_neg hproc]
  have hinv : CInv i (cancelTask i s) := by
    rw [h1]
    exact ⟨getD_set_self_none s.tasks i,
      by rw [List.length_set]; exact hlt,
      hns, hnp, hnd,
      fun j hj => by rw [List.length_set]; exact hpb j hj,
      fun j hj => by rw [List.length_set]; exact hsb j hj,
      hcs⟩
  refine ⟨?_, ?_⟩
  · rw [h1]
    show alookup ((i, TStatus.cancelled) :: s.taskStatus) i = some TStatus.cancelled
    unfold alookup
    rw [if_pos rfl]
  · intro s' hr
    have hinv' := sched_CInv hinv hr
    exact ⟨hinv'.nproc, CInv_processed_lt hinv'⟩

theorem cancelled_never_completed_witness :
    alookup (cancelTask 0 (setTasks [tkC, tkC] (initState 1 0 100))).taskStatus 0
        = some TStatus.cancelled ∧
    (cancelTask 0 (setTasks [tkC, tkC] (initState 1 0 100))).processed.length <
      (cancelTask 0 (setTasks [tkC, tkC] (initState 1 0 100))).tasks.length := by
  have h := cancelled_never_completed (setTasks [tkC, tkC] (initState 1 0 100)) 0
    (by decide) (by decide) (by decide) (by decide) (by decide) (by decide) (by decide) (by decide)
  exact ⟨h.1, (h.2 _ Relation.ReflTransGen.refl).2⟩

/-! ### Branch characterisations of the close handler -/

theorem handleClose_done (t idx : Nat) (code : Option Int) (o e : String) (s : MgrState)
    (hc : code = some 0) :
    handleClose t idx code o e s =
      ({ s with
          timeouts := s.timeouts.filter (fun j => j ≠ idx)
          children := s.children.filter (fun j => j ≠ idx)
          processing := s.processing.filter (fun j => j ≠ idx)
          processed := pushIfAbsent s.processed idx
          threads := s.threads.set t none
          taskStatus := (idx, TStatus.done) :: s.taskStatus },
       [Event.afterRunTask t idx code o e, Event.onStopTask idx, Event.taskDone idx]) := by
  unfold handleClose
  rw [if_pos hc]
  rfl

theorem handleClose_retry (t idx : Nat) (code : Option Int) (o e : String) (s : MgrState)
    (hc : code ≠ some 0) (h1 : retryGet s idx + 1 ≤ s.maxRetry)
    (h2 : s.globalRetryCount + 1 ≤ s.globalRetryLimit) :
    handleClose t idx code o e s =
      ({ s with
          timeouts := s.timeouts.filter (fun j => j ≠ idx)
          children := s.children.filter (fun j => j ≠ idx)
          processing := s.processing.filter (fun j => j ≠ idx)
          processed := (pushIfAbsent s.processed idx).filter (fun j => j ≠ idx)
          threads := s.threads.set t none
          taskStatus := (idx, TStatus.failed) :: s.taskStatus
          retryCount := (idx, retryGet s idx + 1) :: s.retryCount
          globalRetryCount := s.globalRetryCount + 1 },
       [Event.afterRunTask t idx code o e, Event.onStopTask idx,
        Event.taskError t idx code e, Event.taskRetry idx (retryGet s idx + 1)]) := by
  unfold handleClose
  rw [if_neg hc]
  dsimp only
  rw [if_pos (by
    simp only [Bool.and_eq_true, decide_eq_true_eq]
    exact ⟨h1, h2⟩)]
  rfl

theorem handleClose_halt (t idx : Nat) (code : Option Int) (o e : String) (s : MgrState)
    (hc : code ≠ some 0) (hg : s.globalRetryLimit < s.globalRetryCount + 1) :
    handleClose t idx code o e s =
      ({ s with
          timeouts := s.timeouts.filter (fun j => j ≠ idx)
          children := s.children.filter (fun j => j ≠ idx)
          processing := s.processing.filter (fun j => j ≠ idx)
          processed := pushIfAbsent s.processed idx
          threads := s.threads.set t none
          taskStatus := (idx, TStatus.failed) :: s.taskStatus
          retryCount := (idx, retryGet s idx + 1) :: s.retryCount
          globalRetryCount := s.globalRetryCount + 1
          isProcessing := false },
       [Event.afterRunTask t idx code o e, Event.onStopTask idx,
        Event.taskError t idx code e]) := by
  unfold handleClose
  rw [if_neg hc]
  dsimp only
  rw [if_neg (by
    simp only [Bool.and_eq_true, decide_eq_true_eq]
    intro hcontra
    omega)]
  rw [if_pos hg]
  rfl

theorem handleClose_permfail (t idx : Nat) (code : Option Int) (o e : String) (s : MgrState)
    (hc : code ≠ some 0) (h1 : s.maxRetry < retryGet s idx + 1)
    (h2 : s.globalRetryCount + 1 ≤ s.globalRetryLimit) :
    handleClose t idx code o e s =
      ({ s with
          timeouts := s.timeouts.filter (fun j => j ≠ idx)
          children := s.children.filter (fun j => j ≠ idx)
          processing := s.processing.filter (fun j => j ≠ idx)
          processed := pushIfAbsent s.processed idx
          threads := s.threads.set t none
          taskStatus := (idx, TStatus.failed) :: s.taskStatus
          retryCount := (idx, retryGet s idx + 1) :: s.retryCount
          globalRetryCount := s.globalRetryCount + 1 },
       [Event.afterRunTask t idx code o e, Event.onStopTask idx,
        Event.taskError t idx code e]) := by
  unfold handleClose
  rw [if_neg hc]
  dsimp only
  rw [if_neg (by
    simp only [Bool.and_eq_true, decide_eq_true_eq]
    intro hcontra
    simp only [retryGet] at hcontra
    simp only [retryGet] at h1
    omega)]
  rw [if_neg (by omega)]
  rfl

/-- C3: a failure that pushes the global retry counter past the ceiling
clears the processing flag, removes only the closing task's own handle,
kills nothing and leaves the rest of the handle table intact; cleanup
happens only in a later `stop`, which kills every remaining child and
clears the table. -/
theorem global_ceiling_halts_dispatch (s : MgrState) (t idx : Nat) (code : Option Int)
    (o e sig : String) (hc : code ≠ some 0)
    (hg : s.globalRetryLimit < s.globalRetryCount + 1) :
    (handleClose t idx code o e s).1.isProcessing = false ∧
    (handleClose t idx code o e s).1.children = s.children.filter (fun j => j ≠ idx) ∧
    (∀ ev ∈ (handleClose t idx code o e s).2, ∀ j sg, ev ≠ Event.kill j sg) ∧
    idx ∈ (handleClose t idx code o e s).1.processed ∧
    (stop sig (handleClose t idx code o e s).1).1.children = [] ∧
    (∀ j ∈ (handleClose t idx code o e s).1.children,
      Event.kill j sig ∈ (stop sig (handleClose t idx code o e s).1).2) := by
  rw [handleClose_halt t idx code o e s hc hg]
  refine ⟨rfl, rfl, ?_, ?_, rfl, ?_⟩
  · intro ev hev j sg
    rcases List.mem_cons.mp hev with rfl | hev
    · intro h; exact Event.noConfusion h
    · rcases List.mem_cons.mp hev with rfl | hev
      · intro h; exact Event.noConfusion h
      · rcases List.mem_cons.mp hev with rfl | hev
        · intro h; exact Event.noConfusion h
        · exact absurd hev (List.not_mem_nil ev)
  · exact mem_pushIfAbsent.mpr (Or.inr rfl)
  · intro j hj
    show Event.kill j sig ∈
      Event.beforeStop :: (List.map (fun i => Event.kill i sig) _) ++ [Event.afterStop]
    refine List.mem_cons.mpr (Or.inr ?_)
    exact List.mem_append.mpr (Or.inl (List.mem_map.mpr ⟨j, hj, rfl⟩))

theorem global_ceiling_halts_dispatch_witness :
    (handleClose 0 0 (some 1) outS errS
        { setTasks [tkC] (initState 1 0 0) with
          isProcessing := true, threads := [some 0], processing := [0],
          children := [0, 7], spawned := [0] }).1.isProcessing = false ∧
    (handleClose 0 0 (some 1) outS errS
        { setTasks [tkC] (initState 1 0 0) with
          isProcessing := true, threads := [some 0], processing := [0],
          children := [0, 7], spawned := [0] }).1.children = [7] := by
  have h := global_ceiling_halts_dispatch
    { setTasks [tkC] (initState 1 0 0) with
      isProcessing := true, threads := [some 0], processing := [0],
      children := [0, 7], spawned := [0] }
    0 0 (some 1) outS errS sigterm (by decide) (by decide)
  refine ⟨h.1, ?_⟩
  rw [h.2.1]
  decide

/-- Recogniser for task-error hook invocations. -/
def isTaskErrorEv : Event → Bool
  | Event.taskError _ _ _ _ => true
  | _ => false

/-- The string payloads an event delivers to its hook. -/
def eventStrings : Event → List String
  | Event.spawn _ _ c => [c]
  | Event.kill _ sg => [sg]
  | Event.afterRunTask _ _ _ o e => [o, e]
  | Event.taskError _ _ _ e => [e]
  | _ => []

/-- C9 (amended): on every close the after-run hook receives the full
accumulated stdout and stderr; on a nonzero exit the task-error hook fires
and receives the full accumulated stderr — and only the stderr: every
task-error event's payload is exactly the stderr text. -/
theorem close_reports_full_output (t idx : Nat) (code : Option Int) (o e : String)
    (s : MgrState) :
    Event.afterRunTask t idx code o e ∈ (handleClose t idx code o e s).2 ∧
    (code ≠ some 0 → Event.taskError t idx code e ∈ (handleClose t idx code o e s).2) ∧
    (∀ ev ∈ (handleClose t idx code o e s).2,
      isTaskErrorEv ev = true → eventStrings ev = [e]) := by
  by_cases hc : code = some 0
  · rw [handleClose_done t idx code o e s hc]
    refine ⟨by simp, fun hne => absurd hc hne, ?_⟩
    intro ev hev hte
    rcases List.mem_cons.mp hev with rfl | hev
    · exact absurd hte (by simp [isTaskErrorEv])
    · rcases List.mem_cons.mp hev with rfl | hev
      · exact absurd hte (by simp [isTaskErrorEv])
      · rcases List.mem_cons.mp hev with rfl | hev
        · exact absurd hte (by simp [isTaskErrorEv])
        · exact absurd hev (List.not_mem_nil ev)
  · by_cases h2 : s.globalRetryCount + 1 ≤ s.globalRetryLimit
    · by_cases h1 : retryGet s idx + 1 ≤ s.maxRetry
      · rw [handleClose_retry t idx code o e s hc h1 h2]
        refine ⟨by simp, fun _ => by simp, ?_⟩
        intro ev hev hte
        rcases List.mem_cons.mp hev with rfl | hev
        · exact absurd hte (by simp [isTaskErrorEv])
        · rcases List.mem_cons.mp hev with rfl | hev
          · exact absurd hte (by simp [isTaskErrorEv])
          · rcases List.mem_cons.mp hev with rfl | hev
            · rfl
            · rcases List.mem_cons.mp hev with rfl | hev
              · exact absurd hte (by simp [isTaskErrorEv])
              · exact absurd hev (List.not_mem_nil ev)
      · rw [handleClose_permfail t idx code o e s hc (by omega) h2]
        refine ⟨by simp, fun _ => by simp, ?_⟩
        intro ev hev hte
        rcases List.mem_cons.mp hev with rfl | hev
        · exact absurd hte (by simp [isTaskErrorEv])
        · rcases List.mem_cons.mp hev with rfl | hev
          · exact absurd hte (by simp [isTaskErrorEv])
          · rcases List.mem_cons.mp hev with rfl | hev
            · rfl
            · exact absurd hev (List.not_mem_nil ev)
    · rw [handleClose_halt t idx code o e s hc (by omega)]
      refine ⟨by simp, fun _ => by simp, ?_⟩
      intro ev hev hte
      rcases List.mem_cons.mp hev with rfl | hev
      · exact absurd hte (by simp [isTaskErrorEv])
      · rcases List.mem_cons.mp hev with rfl | hev
        · exact absurd hte (by simp [isTaskErrorEv])
        · rcases List.mem_cons.mp hev with rfl | hev
          · rfl
          · exact absurd hev (List.not_mem_nil ev)

theorem close_reports_full_output_witness :
    Event.afterRunTask 0 0 (some 1) outS errS
        ∈ (handleClose 0 0 (some 1) outS errS (setTasks [tkC] (initState 1 2 100))).2 ∧
    Event.taskError 0 0 (some 1) errS
        ∈ (handleClose 0 0 (some 1) outS errS (setTasks [tkC] (initState 1 2 100))).2 := by
  have h := close_reports_full_output 0 0 (some 1) outS errS (setTasks [tkC] (initState 1 2 100))
  exact ⟨h.1, h.2.1 (by decide)⟩

/-- C9 counterexample: at a concrete failing close with accumulated stdout
"OUT" and stderr "E", the task-error hook's payload is exactly ["E"]; the
accumulated stdout never reaches the task-error hook (it reaches only the
after-run hook). -/
theorem error_hook_no_stdout_cex :
    Event.taskError 0 0 (some 1) errS
        ∈ (handleClose 0 0 (some 1) outS errS (setTasks [tkC] (initState 1 2 100))).2 ∧
    (∀ ev ∈ (handleClose 0 0 (some 1) outS errS (setTasks [tkC] (initState 1 2 100))).2,
      isTaskErrorEv ev = true → outS ∉ eventStrings ev) ∧
    Event.afterRunTask 0 0 (some 1) outS errS
        ∈ (handleClose 0 0 (some 1) outS errS (setTasks [tkC] (initState 1 2 100))).2 := by
  decide

theorem getD_map_clear (i : Nat) :
    ∀ (l : List (Option Nat)) (t : Nat),
      ((l.map (fun x => if x = some i then none else x)).getD t none) ≠ some i := by
  intro l
  induction l with
  | nil =>
    intro t h
    cases t with
    | zero => exact Option.noConfusion h
    | succ t => exact Option.noConfusion h
  | cons a l ih =>
    intro t
    cases t with
    | zero =>
      show (if a = some i then none else a) ≠ some i
      split
      · exact fun h => Option.noConfusion h
      · next ha => exact ha
    | succ t => exact ih t

theorem handleClose_retryGet (t idx : Nat) (code : Option Int) (o e : String)
    (s : MgrState) (hc : code ≠ some 0) :
    retryGet (handleClose t idx code o e s).1 idx = retryGet s idx + 1 := by
  by_cases h2 : s.globalRetryCount + 1 ≤ s.globalRetryLimit
  · by_cases h1 : retryGet s idx + 1 ≤ s.maxRetry
    · rw [handleClose_retry t idx code o e s hc h1 h2]
      show (alookup ((idx, retryGet s idx + 1) :: s.retryCount) idx).getD 0
        = retryGet s idx + 1
      unfold alookup
      rw [if_pos rfl]
      rfl
    · rw [handleClose_permfail t idx code o e s hc (by omega) h2]
      show (alookup ((idx, retryGet s idx + 1) :: s.retryCount) idx).getD 0
        = retryGet s idx + 1
      unfold alookup
      rw [if_pos rfl]
      rfl
  · rw [handleClose_halt t idx code o e s hc (by omega)]
    show (alookup ((idx, retryGet s idx + 1) :: s.retryCount) idx).getD 0
      = retryGet s idx + 1
    unfold alookup
    rw [if_pos rfl]
    rfl

theorem handleClose_retry_removes (t idx : Nat) (code : Option Int) (o e : String)
    (s : MgrState) (hc : code ≠ some 0) (h1 : retryGet s idx + 1 ≤ s.maxRetry)
    (h2 : s.globalRetryCount + 1 ≤ s.globalRetryLimit) :
    idx ∉ (handleClose t idx code o e s).1.processed := by
  rw [handleClose_retry t idx code o e s hc h1 h2]
  intro hm
  exact absurd (List.of_mem_filter hm) (by simp)

/-- C7 (amended): `stopTask` on a task with a live child kills the process,
removes it from in-flight tracking, frees its slot, runs its before/after/on
hooks, records status `stopped` and adds the index to the completed set.
The completion is not permanent against the killed process's own close
notification: when that close is later delivered (exit code `null`), the
failure path runs — the retry counter is bumped, and when retries and the
global budget remain, the task is removed from the completed set again and
becomes eligible for re-dispatch. -/
theorem stopTask_stops_and_completes (s : MgrState) (i : Nat) (sig : String)
    (hc : i ∈ s.children) :
    (Event.beforeStopTask i ∈ (stopTask i sig s).2 ∧
     Event.kill i sig ∈ (stopTask i sig s).2 ∧
     Event.afterStopTask i ∈ (stopTask i sig s).2 ∧
     Event.onStopTask i ∈ (stopTask i sig s).2) ∧
    i ∉ (stopTask i sig s).1.processing ∧
    i ∉ (stopTask i sig s).1.children ∧
    (∀ t, (stopTask i sig s).1.threads.getD t none ≠ some i) ∧
    i ∈ (stopTask i sig s).1.processed ∧
    alookup (stopTask i sig s).1.taskStatus i = some TStatus.stopped ∧
    (∀ t code o e, code ≠ some 0 →
      retryGet (handleClose t i code o e (stopTask i sig s).1).1 i = retryGet s i + 1 ∧
      (retryGet s i + 1 ≤ s.maxRetry → s.globalRetryCount + 1 ≤ s.globalRetryLimit →
        i ∉ (handleClose t i code o e (stopTask i sig s).1).1.processed)) := by
  have hstop : stopTask i sig s =
      ({ s with
          children := s.children.filter (fun j => j ≠ i)
          processing := s.processing.filter (fun j => j ≠ i)
          threads := s.threads.map (fun t => if t = some i then none else t)
          processed := pushIfAbsent s.processed i
          taskStatus := (i, TStatus.stopped) :: s.taskStatus },
       [Event.beforeStopTask i, Event.kill i sig, Event.afterStopTask i, Event.onStopTask i]) := by
    unfold stopTask
    rw [if_pos hc]
  rw [hstop]
  refine ⟨⟨by simp, by simp, by simp, by simp⟩, ?_, ?_, ?_, ?_, ?_, ?_⟩
  · intro hm
    exact absurd (List.of_mem_filter hm) (by simp)
  · intro hm
    exact absurd (List.of_mem_filter hm) (by simp)
  · exact getD_map_clear i s.threads
  · exact mem_pushIfAbsent.mpr (Or.inr rfl)
  · show alookup ((i, TStatus.stopped) :: s.taskStatus) i = some TStatus.stopped
    unfold alookup
    rw [if_pos rfl]
  · intro t code o e hcode
    dsimp only
    constructor
    · rw [handleClose_retryGet _ _ code o e _ hcode]
      rfl
    · intro h1 h2
      exact handleClose_retry_removes _ _ code o e _ hcode h1 h2

theorem stopTask_stops_and_completes_witness :
    Event.kill 0 sigterm
        ∈ (stopTask 0 sigterm
            { setTasks [tkC] (initState 1 1 100) with
              isProcessing := true, threads := [some 0], processing := [0],
              children := [0], spawned := [0] }).2 ∧
    0 ∈ (stopTask 0 sigterm
            { setTasks [tkC] (initState 1 1 100) with
              isProcessing := true, threads := [some 0], processing := [0],
              children := [0], spawned := [0] }).1.processed := by
  have h := stopTask_stops_and_completes
    { setTasks [tkC] (initState 1 1 100) with
      isProcessing := true, threads := [some 0], processing := [0],
      children := [0], spawned := [0] }
    0 sigterm (by decide)
  exact ⟨h.1.2.1, h.2.2.2.2.1⟩

/-- C7 counterexample: at a concrete state with `maxRetry = 1`, after
`stopTask 0` the task sits in the completed set with status `stopped`; when
the killed process's close notification (exit code `null`) is delivered,
the task is removed from the completed set, its retry counter is counted up
to 1, and the retry hook fires — so it is neither permanently completed nor
exempt from the retry policy. -/
theorem stopTask_not_permanent_cex :
    (stopTask 0 sigterm
        { setTasks [tkC] (initState 1 1 100) with
          isProcessing := true, threads := [some 0], processing := [0],
          children := [0], spawned := [0] }).1.processed = [0] ∧
    (0 ∉ (handleClose 0 0 none emptyS emptyS
        (stopTask 0 sigterm
          { setTasks [tkC] (initState 1 1 100) with
            isProcessing := true, threads := [some 0], processing := [0],
            children := [0], spawned := [0] }).1).1.processed) ∧
    retryGet (handleClose 0 0 none emptyS emptyS
        (stopTask 0 sigterm
          { setTasks [tkC] (initState 1 1 100) with
            isProcessing := true, threads := [some 0], processing := [0],
            children := [0], spawned := [0] }).1).1 0 = 1 ∧
    Event.taskRetry 0 1 ∈ (handleClose 0 0 none emptyS emptyS
        (stopTask 0 sigterm
          { setTasks [tkC] (initState 1 1 100) with
            isProcessing := true, threads := [some 0], processing := [0],
            children := [0], spawned := [0] }).1).2 := by
  decide

/-- C2: at each dispatch tick, an idle slot is assigned the lowest-index
task whose spec is non-null, not in-flight, not completed and not cancelled;
the assignment marks the task `running`, fires the pre-run hook and spawns
its process (recording the child); and with a single worker slot, every
state reachable by flat scheduling has at most one in-flight task. -/
theorem flat_dispatch_fifo_single_slot :
    (∀ (s : MgrState) (t i : Nat), s.threads.getD t none = none → findNext s = some i →
      (eligible s i = true ∧ (∀ j, j < i → eligible s j = false)) ∧
      assignSlot t s =
        ({ s with
            threads := s.threads.set t (some i)
            processing := s.processing ++ [i]
            taskStatus := (i, TStatus.running) :: s.taskStatus
            children := i :: s.children
            timeouts := i :: s.timeouts
            spawned := s.spawned ++ [i] },
         [Event.beforeRunTask t i,
          Event.spawn t i ((s.tasks.getD i none).getD default).command]) ∧
      alookup (assignSlot t s).1.taskStatus i = some TStatus.running ∧
      i ∈ (assignSlot t s).1.children) ∧
    (∀ s₀ s', Inv1 s₀ → Flat s₀ s' → s'.processing.length ≤ 1) := by
  constructor
  · intro s t i hth hf
    have hmin := findNext_eq_some hf
    have heq : assignSlot t s =
        ({ s with
            threads := s.threads.set t (some i)
            processing := s.processing ++ [i]
            taskStatus := (i, TStatus.running) :: s.taskStatus
            children := i :: s.children
            timeouts := i :: s.timeouts
            spawned := s.spawned ++ [i] },
         [Event.beforeRunTask t i,
          Event.spawn t i ((s.tasks.getD i none).getD default).command]) := by
      unfold assignSlot
      rw [hth]
      dsimp only
      rw [hf]
    refine ⟨⟨hmin.1, hmin.2.2⟩, heq, ?_, ?_⟩
    · rw [heq]
      show alookup ((i, TStatus.running) :: s.taskStatus) i = some TStatus.running
      unfold alookup
      rw [if_pos rfl]
    · rw [heq]
      exact List.mem_cons_self i s.children
  · intro s₀ s' h hr
    exact Inv1_processing_le (flat_Inv1 h hr)

theorem flat_dispatch_fifo_single_slot_witness :
    eligible (setTasks [tkC] (initState 1 2 100)) 0 = true ∧
    (setTasks [tkC] (initState 1 2 100)).processing.length ≤ 1 := by
  have h1 := (flat_dispatch_fifo_single_slot.1 (setTasks [tkC] (initState 1 2 100)) 0 0
    (by decide) (by decide)).1.1
  have h2 := flat_dispatch_fifo_single_slot.2 (setTasks [tkC] (initState 1 2 100)) _
    ⟨rfl, Or.inl ⟨rfl, rfl⟩⟩ Relation.ReflTransGen.refl
  exact ⟨h1, h2⟩

/-- C4: grouped mode runs each group as its own lane — the run's trace is
the concatenation of the per-lane traces, one `groupDone` per lane, the
lane count equals the group count and is independent of the configured
worker-slot count; within a lane task k+1's spawn occurs only after task
k's close (the spawn occurring exactly once); no retry, timeout or kill
event ever appears; and after all lanes resolve the processing flag is
cleared and the overall-completion hook fires with the lane count. -/
theorem grouped_lanes_semantics (exitOf : Oracle) (s : MgrState)
    (h : s.isProcessing = true) :
    (runGroups exitOf s).1.isProcessing = false ∧
    (runGroups exitOf s).2
        = groupsTrace exitOf 0 s.taskGroups ++ [Event.allDone s.taskGroups.length] ∧
    (runGroups exitOf s).2.countP isGroupDoneEv = s.taskGroups.length ∧
    (∀ k, (runGroups exitOf { s with totalThreads := k }).2 = (runGroups exitOf s).2) ∧
    (∀ g grp, s.taskGroups.getD g [] = grp → ∀ k, k + 1 < grp.length →
      List.Sublist
        [Event.closed g k, Event.spawn g (k + 1) ((grp.getD (k + 1) default).command)]
        (laneTrace exitOf g 0 grp) ∧
      (laneTrace exitOf g 0 grp).countP (isSpawnIdx g (k + 1)) = 1) ∧
    (∀ ev ∈ (runGroups exitOf s).2, isRetryTimeoutKill ev = false) ∧
    Event.allDone s.taskGroups.length ∈ (runGroups exitOf s).2 := by
  have haux := runGroupsAux_trace exitOf s.taskGroups 0 s h
  have htr : (runGroups exitOf s).2
      = groupsTrace exitOf 0 s.taskGroups ++ [Event.allDone s.taskGroups.length] := by
    show (runGroupsAux exitOf 0 s.taskGroups s).2 ++ [Event.allDone s.taskGroups.length]
      = groupsTrace exitOf 0 s.taskGroups ++ [Event.allDone s.taskGroups.length]
    rw [haux.1]
  refine ⟨rfl, htr, ?_, ?_, ?_, ?_, ?_⟩
  · rw [htr, List.countP_append, groupsTrace_groupDone_count]
    show s.taskGroups.length + ([Event.allDone s.taskGroups.length].countP isGroupDoneEv)
      = s.taskGroups.length
    rfl
  · intro k
    have haux2 := runGroupsAux_trace exitOf s.taskGroups 0 { s with totalThreads := k } h
    show (runGroupsAux exitOf 0 s.taskGroups { s with totalThreads := k }).2
        ++ [Event.allDone s.taskGroups.length]
      = (runGroupsAux exitOf 0 s.taskGroups s).2 ++ [Event.allDone s.taskGroups.length]
    rw [haux2.1, haux.1]
  · intro g grp _ k hk
    constructor
    · have hsub := laneTrace_sequencing exitOf g grp 0 k hk
      simpa using hsub
    · rw [laneTrace_spawn_count exitOf g grp 0 (k + 1)]
      rw [if_pos ⟨Nat.zero_le _, by omega⟩]
  · intro ev hev
    rw [htr] at hev
    rcases List.mem_append.mp hev with hev | hev
    · exact groupsTrace_clean exitOf s.taskGroups 0 ev hev
    · rcases List.mem_cons.mp hev with rfl | hev
      · rfl
      · exact absurd hev (List.not_mem_nil ev)
  · rw [htr]
    exact List.mem_append.mpr (Or.inr (List.mem_cons_self _ _))

theorem grouped_lanes_semantics_witness :
    (runGroups oracleOk
        { setGroupedTasks [[tkC, tkC], [tkC]] (initState 1 2 100) with
          isProcessing := true }).1.isProcessing = false ∧
    (runGroups oracleOk
        { setGroupedTasks [[tkC, tkC], [tkC]] (initState 1 2 100) with
          isProcessing := true }).2.countP isGroupDoneEv = 2 ∧
    List.Sublist [Event.closed 0 0, Event.spawn 0 1 tkC.command]
      (laneTrace oracleOk 0 0 [tkC, tkC]) := by
  have h := grouped_lanes_semantics oracleOk
    { setGroupedTasks [[tkC, tkC], [tkC]] (initState 1 2 100) with isProcessing := true }
    rfl
  refine ⟨h.1, h.2.2.1, ?_⟩
  exact (h.2.2.2.2.1 0 [tkC, tkC] rfl 0 (by decide)).1

theorem flatRun_step (exitOf : Oracle) (fuel fuel' : Nat) (s : MgrState) (acc : List Event)
    (hf : fuel = fuel' + 1) (h1 : s.isProcessing = true)
    (h2 : s.processed.length < s.tasks.length) (h3 : s.isPaused = false) :
    flatRun exitOf fuel s acc
      = flatRun exitOf fuel' (deliverAll exitOf (dispatchTick s).1).1
          (acc ++ (dispatchTick s).2 ++ (deliverAll exitOf (dispatchTick s).1).2) := by
  subst hf
  conv_lhs => rw [flatRun]
  rw [if_pos (by simp [h1, h2]), if_neg (by simp [h3])]

theorem flatRun_exit (exitOf : Oracle) (fuel fuel' : Nat) (s : MgrState) (acc : List Event)
    (hf : fuel = fuel' + 1)
    (h : ¬(s.isProcessing = true ∧ s.processed.length < s.tasks.length)) :
    flatRun exitOf fuel s acc
      = ({ s with isProcessing := false }, acc ++ [Event.allDone s.tasks.length]) := by
  subst hf
  conv_lhs => rw [flatRun]
  rw [if_neg (by
    simp only [Bool.and_eq_true, decide_eq_true_eq]
    exact h)]

/-- State family traversed by the single-task always-failing run used for
the retry-accounting claim: one slot, one task `tk`, `maxRetry = 2`,
`globalRetryLimit = 100`, processing flag set. -/
def c1State (tk : Task) (thr : Option Nat) (proc procd ch tos : List Nat)
    (rc : List (Nat × Nat)) (g : Nat) (st : List (Nat × TStatus)) (sp : List Nat) :
    MgrState :=
  { totalThreads := 1
    tasks := [some tk]
    taskGroups := []
    threads := [thr]
    processing := proc
    processed := procd
    isProcessing := true
    isPaused := false
    children := ch
    retryCount := rc
    timeouts := tos
    maxRetry := 2
    globalRetryLimit := 100
    globalRetryCount := g
    taskStatus := st
    spawned := sp }

/-- Intermediate states of the always-failing single-task run: after the
n-th dispatch (`d` suffix) and after the n-th failure handling. -/
def c1s0d (tk : Task) : MgrState :=
  c1State tk (some 0) [0] [] [0] [0] [] 0
    [(0, TStatus.running), (0, TStatus.waiting)] [0]

/-- State after the first failure (retry queued). -/
def c1s1 (tk : Task) : MgrState :=
  c1State tk none [] [] [] [] [(0, 1)] 1 [(0, TStatus.failed), (0, TStatus.running), (0, TStatus.waiting)] [0]

/-- State after the second dispatch. -/
def c1s1d (tk : Task) : MgrState :=
  c1State tk (some 0) [0] [] [0] [0] [(0, 1)] 1 [(0, TStatus.running), (0, TStatus.failed), (0, TStatus.running), (0, TStatus.waiting)] [0, 0]

/-- State after the second failure (retry queued). -/
def c1s2 (tk : Task) : MgrState :=
  c1State tk none [] [] [] [] [(0, 2), (0, 1)] 2 [(0, TStatus.failed), (0, TStatus.running), (0, TStatus.failed), (0, TStatus.running), (0, TStatus.waiting)] [0, 0]

/-- State after the third dispatch. -/
def c1s2d (tk : Task) : MgrState :=
  c1State tk (some 0) [0] [] [0] [0] [(0, 2), (0, 1)] 2 [(0, TStatus.running), (0, TStatus.failed), (0, TStatus.running), (0, TStatus.failed), (0, TStatus.running), (0, TStatus.waiting)] [0, 0, 0]

/-- State after the third failure (permanent). -/
def c1s3 (tk : Task) : MgrState :=
  c1State tk none [] [0] [] [] [(0, 3), (0, 2), (0, 1)] 3 [(0, TStatus.failed), (0, TStatus.running), (0, TStatus.failed), (0, TStatus.running), (0, TStatus.failed), (0, TStatus.running), (0, TStatus.waiting)] [0, 0, 0]

/-- C1 (amended): a flat-mode task whose process always exits with a
nonzero code, under `maxRetry = 2` and a large global ceiling, is attempted
exactly 3 times (three spawns in the trace and in the ghost history), ends
permanently `failed` (no further task is selectable and another dispatch
tick leaves the state unchanged), the scheduler loop terminates, and the
global retry counter increases by exactly 3 — one increment per failed
attempt, including the final one. -/
theorem always_failing_task_retry_accounting (tk : Task) (c : Int) (o e : String)
    (hc : c ≠ 0) :
    (flatRun (fun _ _ => (some c, o, e)) 10
        { setTasks [tk] (initState 1 2 100) with isProcessing := true } []).1.spawned.count 0
      = 3 ∧
    (flatRun (fun _ _ => (some c, o, e)) 10
        { setTasks [tk] (initState 1 2 100) with isProcessing := true } []).2.countP
        (isSpawnIdx 0 0) = 3 ∧
    alookup (flatRun (fun _ _ => (some c, o, e)) 10
        { setTasks [tk] (initState 1 2 100) with isProcessing := true } []).1.taskStatus 0
      = some TStatus.failed ∧
    (flatRun (fun _ _ => (some c, o, e)) 10
        { setTasks [tk] (initState 1 2 100) with isProcessing := true } []).1.globalRetryCount
      = 3 ∧
    (flatRun (fun _ _ => (some c, o, e)) 10
        { setTasks [tk] (initState 1 2 100) with isProcessing := true } []).1.isProcessing
      = false ∧
    findNext (flatRun (fun _ _ => (some c, o, e)) 10
        { setTasks [tk] (initState 1 2 100) with isProcessing := true } []).1 = none ∧
    (dispatchTick (flatRun (fun _ _ => (some c, o, e)) 10
        { setTasks [tk] (initState 1 2 100) with isProcessing := true } []).1).1
      = (flatRun (fun _ _ => (some c, o, e)) 10
          { setTasks [tk] (initState 1 2 100) with isProcessing := true } []).1 := by
  have hc2 : (some c : Option Int) ≠ some 0 := by simpa using hc
  have hd1 : dispatchTick { setTasks [tk] (initState 1 2 100) with isProcessing := true }
      = (c1s0d tk, [Event.beforeRunTask 0 0, Event.spawn 0 0 tk.command]) := rfl
  have hcl1 : handleClose 0 0 (some c) o e (c1s0d tk)
      = (c1s1 tk,
         [Event.afterRunTask 0 0 (some c) o e, Event.onStopTask 0,
          Event.taskError 0 0 (some c) e, Event.taskRetry 0 1]) := by
    rw [handleClose_retry 0 0 (some c) o e (c1s0d tk) hc2
      (by show (1 : Nat) ≤ 2; decide) (by show (1 : Nat) ≤ 100; decide)]
    rfl
  have hv1 : deliverAll (fun _ _ => (some c, o, e)) (c1s0d tk)
      = (c1s1 tk,
         [Event.afterRunTask 0 0 (some c) o e, Event.onStopTask 0,
          Event.taskError 0 0 (some c) e, Event.taskRetry 0 1]) := by
    show ((handleClose 0 0 (some c) o e (c1s0d tk)).1,
          [] ++ (handleClose 0 0 (some c) o e (c1s0d tk)).2) = _
    rw [hcl1]
    rfl
  have st1 : flatRun (fun _ _ => (some c, o, e)) 10
        { setTasks [tk] (initState 1 2 100) with isProcessing := true } []
      = flatRun (fun _ _ => (some c, o, e)) 9 (c1s1 tk)
          [Event.beforeRunTask 0 0, Event.spawn 0 0 tk.command,
       Event.afterRunTask 0 0 (some c) o e, Event.onStopTask 0,
       Event.taskError 0 0 (some c) e, Event.taskRetry 0 1] := by
    rw [flatRun_step (fun _ _ => (some c, o, e)) 10 9
      { setTasks [tk] (initState 1 2 100) with isProcessing := true } [] rfl rfl
      (by show (0 : Nat) < 1; decide) rfl]
    rw [hd1]
    dsimp only
    rw [hv1]
    rfl
  have hd2 : dispatchTick (c1s1 tk)
      = (c1s1d tk, [Event.beforeRunTask 0 0, Event.spawn 0 0 tk.command]) := rfl
  have hcl2 : handleClose 0 0 (some c) o e (c1s1d tk)
      = (c1s2 tk,
         [Event.afterRunTask 0 0 (some c) o e, Event.onStopTask 0,
          Event.taskError 0 0 (some c) e, Event.taskRetry 0 2]) := by
    rw [handleClose_retry 0 0 (some c) o e (c1s1d tk) hc2
      (by show (2 : Nat) ≤ 2; decide) (by show (2 : Nat) ≤ 100; decide)]
    rfl
  have hv2 : deliverAll (fun _ _ => (some c, o, e)) (c1s1d tk)
      = (c1s2 tk,
         [Event.afterRunTask 0 0 (some c) o e, Event.onStopTask 0,
          Event.taskError 0 0 (some c) e, Event.taskRetry 0 2]) := by
    show ((handleClose 0 0 (some c) o e (c1s1d tk)).1,
          [] ++ (handleClose 0 0 (some c) o e (c1s1d tk)).2) = _
    rw [hcl2]
    rfl
  have st2 : flatRun (fun _ _ => (some c, o, e)) 9 (c1s1 tk)
        [Event.beforeRunTask 0 0, Event.spawn 0 0 tk.command,
       Event.afterRunTask 0 0 (some c) o e, Event.onStopTask 0,
       Event.taskError 0 0 (some c) e, Event.taskRetry 0 1]
      = flatRun (fun _ _ => (some c, o, e)) 8 (c1s2 tk)
          [Event.beforeRunTask 0 0, Event.spawn 0 0 tk.command,
       Event.afterRunTask 0 0 (some c) o e, Event.onStopTask 0,
       Event.taskError 0 0 (some c) e, Event.taskRetry 0 1,
       Event.beforeRunTask 0 0, Event.spawn 0 0 tk.command,
       Event.afterRunTask 0 0 (some c) o e, Event.onStopTask 0,
       Event.taskError 0 0 (some c) e, Event.taskRetry 0 2] := by
    rw [flatRun_step (fun _ _ => (some c, o, e)) 9 8 (c1s1 tk)
      [Event.beforeRunTask 0 0, Event.spawn 0 0 tk.command,
       Event.afterRunTask 0 0 (some c) o e, Event.onStopTask 0,
       Event.taskError 0 0 (some c) e, Event.taskRetry 0 1] rfl rfl (by show (0 : Nat) < 1; decide) rfl]
    rw [hd2]
    dsimp only
    rw [hv2]
    rfl
  have hd3 : dispatchTick (c1s2 tk)
      = (c1s2d tk, [Event.beforeRunTask 0 0, Event.spawn 0 0 tk.command]) := rfl
  have hcl3 : handleClose 0 0 (some c) o e (c1s2d tk)
      = (c1s3 tk,
         [Event.afterRunTask 0 0 (some c) o e, Event.onStopTask 0,
          Event.taskError 0 0 (some c) e]) := by
    rw [handleClose_permfail 0 0 (some c) o e (c1s2d tk) hc2
      (by show (2 : Nat) < 3; decide) (by show (3 : Nat) ≤ 100; decide)]
    rfl
  have hv3 : deliverAll (fun _ _ => (some c, o, e)) (c1s2d tk)
      = (c1s3 tk,
         [Event.afterRunTask 0 0 (some c) o e, Event.onStopTask 0,
          Event.taskError 0 0 (some c) e]) := by
    show ((handleClose 0 0 (some c) o e (c1s2d tk)).1,
          [] ++ (handleClose 0 0 (some c) o e (c1s2d tk)).2) = _
    rw [hcl3]
    rfl
  have st3 : flatRun (fun _ _ => (some c, o, e)) 8 (c1s2 tk)
        [Event.beforeRunTask 0 0, Event.spawn 0 0 tk.command,
       Event.afterRunTask 0 0 (some c) o e, Event.onStopTask 0,
       Event.taskError 0 0 (some c) e, Event.taskRetry 0 1,
       Event.beforeRunTask 0 0, Event.spawn 0 0 tk.command,
       Event.afterRunTask 0 0 (some c) o e, Event.onStopTask 0,
       Event.taskError 0 0 (some c) e, Event.taskRetry 0 2]
      = flatRun (fun _ _ => (some c, o, e)) 7 (c1s3 tk)
          [Event.beforeRunTask 0 0, Event.spawn 0 0 tk.command,
       Event.afterRunTask 0 0 (some c) o e, Event.onStopTask 0,
       Event.taskError 0 0 (some c) e, Event.taskRetry 0 1,
       Event.beforeRunTask 0 0, Event.spawn 0 0 tk.command,
       Event.afterRunTask 0 0 (some c) o e, Event.onStopTask 0,
       Event.taskError 0 0 (some c) e, Event.taskRetry 0 2,
       Event.beforeRunTask 0 0, Event.spawn 0 0 tk.command,
       Event.afterRunTask 0 0 (some c) o e, Event.onStopTask 0,
       Event.taskError 0 0 (some c) e] := by
    rw [flatRun_step (fun _ _ => (some c, o, e)) 8 7 (c1s2 tk)
      [Event.beforeRunTask 0 0, Event.spawn 0 0 tk.command,
       Event.afterRunTask 0 0 (some c) o e, Event.onStopTask 0,
       Event.taskError 0 0 (some c) e, Event.taskRetry 0 1,
       Event.beforeRunTask 0 0, Event.spawn 0 0 tk.command,
       Event.afterRunTask 0 0 (some c) o e, Event.onStopTask 0,
       Event.taskError 0 0 (some c) e, Event.taskRetry 0 2] rfl rfl (by show (0 : Nat) < 1; decide) rfl]
    rw [hd3]
    dsimp only
    rw [hv3]
    rfl
  have st4 : flatRun (fun _ _ => (some c, o, e)) 7 (c1s3 tk)
        [Event.beforeRunTask 0 0, Event.spawn 0 0 tk.command,
       Event.afterRunTask 0 0 (some c) o e, Event.onStopTask 0,
       Event.taskError 0 0 (some c) e, Event.taskRetry 0 1,
       Event.beforeRunTask 0 0, Event.spawn 0 0 tk.command,
       Event.afterRunTask 0 0 (some c) o e, Event.onStopTask 0,
       Event.taskError 0 0 (some c) e, Event.taskRetry 0 2,
       Event.beforeRunTask 0 0, Event.spawn 0 0 tk.command,
       Event.afterRunTask 0 0 (some c) o e, Event.onStopTask 0,
       Event.taskError 0 0 (some c) e]
      = ({ c1s3 tk with isProcessing := false },
         [Event.beforeRunTask 0 0, Event.spawn 0 0 tk.command,
       Event.afterRunTask 0 0 (some c) o e, Event.onStopTask 0,
       Event.taskError 0 0 (some c) e, Event.taskRetry 0 1,
       Event.beforeRunTask 0 0, Event.spawn 0 0 tk.command,
       Event.afterRunTask 0 0 (some c) o e, Event.onStopTask 0,
       Event.taskError 0 0 (some c) e, Event.taskRetry 0 2,
       Event.beforeRunTask 0 0, Event.spawn 0 0 tk.command,
       Event.afterRunTask 0 0 (some c) o e, Event.onStopTask 0,
       Event.taskError 0 0 (some c) e, Event.allDone 1]) := by
    rw [flatRun_exit (fun _ _ => (some c, o, e)) 7 6 (c1s3 tk)
      [Event.beforeRunTask 0 0, Event.spawn 0 0 tk.command,
       Event.afterRunTask 0 0 (some c) o e, Event.onStopTask 0,
       Event.taskError 0 0 (some c) e, Event.taskRetry 0 1,
       Event.beforeRunTask 0 0, Event.spawn 0 0 tk.command,
       Event.afterRunTask 0 0 (some c) o e, Event.onStopTask 0,
       Event.taskError 0 0 (some c) e, Event.taskRetry 0 2,
       Event.beforeRunTask 0 0, Event.spawn 0 0 tk.command,
       Event.afterRunTask 0 0 (some c) o e, Event.onStopTask 0,
       Event.taskError 0 0 (some c) e] rfl
      (fun hcontra => Nat.lt_irrefl 1 hcontra.2)]
    rfl
  have hrun := ((st1.trans st2).trans st3).trans st4
  rw [hrun]
  exact ⟨rfl, rfl, rfl, rfl, rfl, rfl, rfl⟩

theorem always_failing_task_retry_accounting_witness :
    (flatRun (fun _ _ => (some 1, outS, errS)) 10
        { setTasks [tkC] (initState 1 2 100) with isProcessing := true } []).1.globalRetryCount
      = 3 ∧
    alookup (flatRun (fun _ _ => (some 1, outS, errS)) 10
        { setTasks [tkC] (initState 1 2 100) with isProcessing := true } []).1.taskStatus 0
      = some TStatus.failed := by
  have h := always_failing_task_retry_accounting tkC 1 outS errS (by decide)
  exact ⟨h.2.2.2.1, h.2.2.1⟩

/-- C1 counterexample: in the concrete always-failing single-task run with
`maxRetry = 2` and ceiling 100, the global retry counter ends at 3 — it
does not increase by exactly 2 as claimed. -/
theorem retry_budget_cex :
    (flatRun oracleFail 10
        { setTasks [tkC] (initState 1 2 100) with isProcessing := true } []).1.globalRetryCount
      = 3 ∧
    ¬((flatRun oracleFail 10
        { setTasks [tkC] (initState 1 2 100) with isProcessing := true }
        []).1.globalRetryCount = 2) := by
  decide

/-- C6 (amended): `destroy(signal)` clears the flags, kills every tracked
process, clears the handle and timer tables, the flat task storage, the
slot array and both index sets, and fires the destroy hook — but it leaves
the lane (group) storage untouched and does not run the stop hooks.  A
`start()` issued after `destroy()` fires the all-done hook immediately with
total 0 only when no grouped lanes are registered. -/
theorem destroy_clears_flat_only (s : MgrState) (sig : String) (exitOf : Oracle)
    (fuel : Nat) :
    (destroy sig s).1.isProcessing = false ∧
    (destroy sig s).1.isPaused = false ∧
    (destroy sig s).1.tasks = [] ∧
    (destroy sig s).1.children = [] ∧
    (destroy sig s).1.timeouts = [] ∧
    (destroy sig s).1.threads = [] ∧
    (destroy sig s).1.processing = [] ∧
    (destroy sig s).1.processed = [] ∧
    (∀ j ∈ s.children, Event.kill j sig ∈ (destroy sig s).2) ∧
    Event.onDestroy ∈ (destroy sig s).2 ∧
    (destroy sig s).1.taskGroups = s.taskGroups ∧
    (s.taskGroups = [] →
      (start exitOf (fuel + 1) (destroy sig s).1).2 = [Event.allDone 0]) := by
  refine ⟨rfl, rfl, rfl, rfl, rfl, rfl, rfl, rfl, ?_, ?_, rfl, ?_⟩
  · intro j hj
    exact List.mem_append.mpr (Or.inl (List.mem_map.mpr ⟨j, hj, rfl⟩))
  · exact List.mem_append.mpr (Or.inr (List.mem_cons_self _ _))
  · intro hg
    unfold start
    rw [if_neg (show ¬((destroy sig s).1.isProcessing = true) from Bool.false_ne_true)]
    dsimp only
    rw [if_neg (by
      show ¬(0 < s.taskGroups.length)
      rw [hg]
      simp)]
    show (flatRun exitOf (fuel + 1)
        { totalThreads := s.totalThreads, tasks := [], taskGroups := s.taskGroups,
          threads := List.replicate s.totalThreads none, processing := [], processed := [],
          isProcessing := true, isPaused := false, children := [], retryCount := s.retryCount,
          timeouts := [], maxRetry := s.maxRetry, globalRetryLimit := s.globalRetryLimit,
          globalRetryCount := s.globalRetryCount, taskStatus := s.taskStatus,
          spawned := s.spawned } []).2 = [Event.allDone 0]
    rw [flatRun_exit exitOf (fuel + 1) fuel
      { totalThreads := s.totalThreads, tasks := [], taskGroups := s.taskGroups,
          threads := List.replicate s.totalThreads none, processing := [], processed := [],
          isProcessing := true, isPaused := false, children := [], retryCount := s.retryCount,
          timeouts := [], maxRetry := s.maxRetry, globalRetryLimit := s.globalRetryLimit,
          globalRetryCount := s.globalRetryCount, taskStatus := s.taskStatus,
          spawned := s.spawned } [] rfl
      (fun hcontra => Nat.lt_irrefl 0 hcontra.2)]
    rfl

theorem destroy_clears_flat_only_witness :
    (destroy sigterm (setTasks [tkC] (initState 1 2 100))).1.tasks = [] ∧
    (start oracleOk 5 (destroy sigterm (setTasks [tkC] (initState 1 2 100))).1).2
      = [Event.allDone 0] := by
  have h := destroy_clears_flat_only (setTasks [tkC] (initState 1 2 100)) sigterm oracleOk 4
  exact ⟨h.2.2.1, h.2.2.2.2.2.2.2.2.2.2.2 rfl⟩

/-- C6 counterexample: with one registered lane, `destroy` leaves the lane
storage intact, and a `start()` issued after it — without re-registering
anything — re-runs the lane's task and fires the all-done hook with total 1,
not 0. -/
theorem destroy_keeps_groups_cex :
    (destroy sigterm (setGroupedTasks [[tkC]] (initState 1 2 100))).1.taskGroups = [[tkC]] ∧
    (start oracleOk 5 (destroy sigterm (setGroupedTasks [[tkC]] (initState 1 2 100))).1).2
      ≠ [Event.allDone 0] ∧
    Event.spawn 0 0 tkC.command
      ∈ (start oracleOk 5 (destroy sigterm (setGroupedTasks [[tkC]] (initState 1 2 100))).1).2 ∧
    Event.allDone 1
      ∈ (start oracleOk 5 (destroy sigterm (setGroupedTasks [[tkC]] (initState 1 2 100))).1).2 := by
  refine ⟨rfl, ?_, ?_, ?_⟩ <;> decide

end TPMM
